import Mathlib

/-! ## Python-faithful string primitives (structural recursion over `List Char`) -/

/-!
A verification development for the draw.io → RiC-O (OWL Manchester syntax)
converter `draw_io_parser.py`.

The Python module is shallowly embedded here:

* XML elements become the inductive type `Elem` (tag, attributes, children).
* All string processing is re-implemented over `List Char` with structural
  recursion, so that every definition evaluates inside the kernel.
* Python exceptions become the error type `Err`; fallible functions return
  `Except Err _`.
* Coordinates, which the source reads with `float(...)` from XML attributes,
  are modelled as integers (`Int`); the documents considered here carry
  integer-valued coordinates only.
* Python `dict`s (which preserve insertion order) become association lists;
  Python `set`s become duplicate-free lists whose serialisation sorts them,
  exactly as `sorted(...)` does in the source.
* The single stateful component, the HTML label parser, is modelled by the
  state it accumulates (`chunks`, `raw_data`) and the pure functions on it.
* `datetime.now()`, read by `_preamble` when no ontology IRI is configured,
  is modelled by an explicit `now : String` argument threaded into
  `_preamble`, `serialise` and `pipeline`.

Definition names follow the source (`_start_or_end`, `individual_blocks`,
`_infer_type`, `serialise`, ...).
-/

namespace DrawIO

/-- Leading- and trailing-whitespace removal on character lists
(Python `str.strip()`). -/
def trimChars (l : List Char) : List Char :=
  ((l.dropWhile Char.isWhitespace).reverse.dropWhile Char.isWhitespace).reverse

/-- Python `str.strip()`. -/
def pyStrip (s : String) : String := String.mk (trimChars s.data)

/-- Worker for `pySplitOn`: fuel-driven left-to-right splitting of a
character list on a non-empty separator, mirroring Python `str.split(sep)`. -/
def splitOnGo (sep : List Char) : Nat → List Char → List Char → List (List Char)
  | _, [], acc => [acc.reverse]
  | 0, l, acc => [acc.reverse ++ l]
  | fuel+1, c :: rest, acc =>
    if sep ≠ [] && sep.isPrefixOf (c :: rest) then
      acc.reverse :: splitOnGo sep fuel ((c :: rest).drop sep.length) []
    else splitOnGo sep fuel rest (c :: acc)

/-- Python `s.split(sep)` for a non-empty separator `sep`. -/
def pySplitOn (s sep : String) : List String :=
  (splitOnGo sep.data s.data.length s.data []).map String.mk

/-- Python `s.split()`: split on whitespace runs, dropping empty words. -/
def pySplitWhitespace (s : String) : List String :=
  ((s.data.splitOnP Char.isWhitespace).map String.mk).filter (fun w => w ≠ "")

/-- Python `sub in s` for a single-character pattern. -/
def pyContainsChar (s : String) (c : Char) : Bool := s.data.contains c

/-- Python `s.startswith(pat)`. -/
def pyStartsWith (s pat : String) : Bool := pat.data.isPrefixOf s.data

/-- Python `s.replace(c, r)` for a single-character pattern `c`. -/
def replaceChar (s : String) (c : Char) (r : String) : String :=
  String.mk (s.data.flatMap (fun d => if d = c then r.data else [d]))

/-- Python `sep.join(l)`. -/
def joinSep (sep : String) : List String → String
  | [] => ""
  | [x] => x
  | x :: y :: xs => x ++ sep ++ joinSep sep (y :: xs)

/-- Python `"".join(l)`. -/
def joinAll : List String → String
  | [] => ""
  | x :: xs => x ++ joinAll xs

/-- Python string `<` (lexicographic on code points), as a Bool. -/
def listLe : List Char → List Char → Bool
  | [], _ => true
  | _ :: _, [] => false
  | a :: as, b :: bs => if a = b then listLe as bs else decide (a < b)

/-- Python `s <= t` on strings. -/
def strLe (a b : String) : Bool := listLe a.data b.data

/-- Insertion into a `strLe`-sorted list. -/
def insertSorted (x : String) : List String → List String
  | [] => [x]
  | y :: ys => if strLe x y then x :: y :: ys else y :: insertSorted x ys

/-- Python `sorted(l)` on strings. -/
def sortedStrings : List String → List String
  | [] => []
  | x :: xs => insertSorted x (sortedStrings xs)

/-- Python space-times-n, the indentation strings of the source. -/
def spaces : Nat → String
  | 0 => ""
  | n+1 => " " ++ spaces n

/-- Python `word[0].upper() + word[1:]` (empty word untouched; `split()`
never produces empty words). -/
def capFirst (w : String) : String :=
  match w.data with
  | [] => ""
  | c :: rest => String.mk (c.toUpper :: rest)

/-- Python `word[0].lower() + word[1:]` (empty word untouched). -/
def lowFirst (w : String) : String :=
  match w.data with
  | [] => ""
  | c :: rest => String.mk (c.toLower :: rest)

/-- Python `str.isnumeric()` restricted to ASCII digits (the source feeds it
plain-text labels; non-ASCII numeric codepoints are not modelled). -/
def pyIsNumeric (s : String) : Bool := s ≠ "" && s.data.all Char.isDigit

/-- Parse an optionally-signed decimal integer, the integer fragment of
Python `float(...)` as used on the XML coordinate attributes (which are
integer-valued in the documents modelled here). -/
def digitsToNat : List Char → Option Nat
  | [] => Option.none
  | l => l.foldl (fun acc c =>
      match acc with
      | Option.none => Option.none
      | some n => if c.isDigit then some (n * 10 + (c.toNat - 48)) else Option.none)
      (some 0)

/-- Python `float(s)` restricted to integer-valued attribute strings. -/
def parseCoord (s : String) : Option Int :=
  match s.data with
  | '-' :: rest => (digitsToNat rest).map (fun n => -(n : Int))
  | l => (digitsToNat l).map (fun n => (n : Int))

/-- The fixed RiC-O class vocabulary, transcribed from the source. -/
def _ric_classes : List String := [
  "AccumulationRelation",
  "Activity",
  "ActivityDocumentationRelation",
  "ActivityType",
  "Agent",
  "AgentControlRelation",
  "AgentHierarchicalRelation",
  "AgentName",
  "AgentTemporalRelation",
  "AgentToAgentRelation",
  "Appellation",
  "AppellationRelation",
  "AuthorityRelation",
  "AuthorshipRelation",
  "CarrierExtent",
  "CarrierType",
  "ChildRelation",
  "Concept",
  "ContentType",
  "Coordinates",
  "CorporateBody",
  "CorporateBodyType",
  "CorrespondenceRelation",
  "CreationRelation",
  "Date",
  "DateType",
  "DemographicGroup",
  "DerivationRelation",
  "DescendanceRelation",
  "DocumentaryFormType",
  "Event",
  "EventRelation",
  "EventType",
  "Extent",
  "ExtentType",
  "Family",
  "FamilyRelation",
  "FamilyType",
  "FunctionalEquivalenceRelation",
  "Group",
  "GroupSubdivisionRelation",
  "Identifier",
  "IdentifierType",
  "Instantiation",
  "InstantiationExtent",
  "InstantiationToInstantiationRelation",
  "IntellectualPropertyRightsRelation",
  "KnowingOfRelation",
  "KnowingRelation",
  "Language",
  "LeadershipRelation",
  "LegalStatus",
  "ManagementRelation",
  "Mandate",
  "MandateRelation",
  "MandateType",
  "Mechanism",
  "MembershipRelation",
  "MigrationRelation",
  "Name",
  "OccupationType",
  "OrganicOrFunctionalProvenanceRelation",
  "OrganicProvenanceRelation",
  "OwnershipRelation",
  "PerformanceRelation",
  "Person",
  "PhysicalLocation",
  "Place",
  "PlaceName",
  "PlaceRelation",
  "PlaceType",
  "Position",
  "PositionHoldingRelation",
  "PositionToGroupRelation",
  "ProductionTechniqueType",
  "Proxy",
  "Record",
  "RecordPart",
  "RecordResource",
  "RecordResourceExtent",
  "RecordResourceGeneticRelation",
  "RecordResourceHoldingRelation",
  "RecordResourceToInstantiationRelation",
  "RecordResourceToRecordResourceRelation",
  "RecordSet",
  "RecordSetType",
  "RecordState",
  "Relation",
  "RepresentationType",
  "RoleType",
  "Rule",
  "RuleRelation",
  "RuleType",
  "SequentialRelation",
  "SiblingRelation",
  "SpouseRelation",
  "TeachingRelation",
  "TemporalRelation",
  "Thing",
  "Title",
  "Type",
  "TypeRelation",
  "UnitOfMeasurement",
  "WholePartRelation",
  "WorkRelation"
]

/-- The fixed RiC-O object-property vocabulary, transcribed from the source. -/
def _ric_object_properties : List String := [
  "affectsOrAffected",
  "agentHasOrHadLocation",
  "authorizedBy",
  "authorizes",
  "contained",
  "containsOrContained",
  "containsTransitive",
  "describesOrDescribed",
  "directlyContains",
  "directlyFollowsInSequence",
  "directlyIncludes",
  "directlyPrecedesInSequence",
  "documentedBy",
  "documents",
  "existsOrExistedIn",
  "expressesOrExpressed",
  "followedInSequence",
  "followsInSequenceTransitive",
  "followsInTime",
  "followsOrFollowed",
  "hadComponent",
  "hadConstituent",
  "hadPart",
  "hadSubdivision",
  "hadSubevent",
  "hadSubordinate",
  "hasAccumulator",
  "hasActivityType",
  "hasAddressee",
  "hasAncestor",
  "hasAuthor",
  "hasBeginningDate",
  "hasBirthDate",
  "hasBirthPlace",
  "hasCarrierType",
  "hasChild",
  "hasCollector",
  "hasComponentTransitive",
  "hasConstituentTransitive",
  "hasContentOfType",
  "hasCopy",
  "hasCreationDate",
  "hasCreator",
  "hasDateType",
  "hasDeathDate",
  "hasDeathPlace",
  "hasDescendant",
  "hasDestructionDate",
  "hasDirectComponent",
  "hasDirectConstituent",
  "hasDirectPart",
  "hasDirectSubdivision",
  "hasDirectSubevent",
  "hasDirectSubordinate",
  "hasDocumentaryFormType",
  "hasDraft",
  "hasEndDate",
  "hasEventType",
  "hasExtent",
  "hasExtentType",
  "hasFamilyAssociationWith",
  "hasFamilyType",
  "hasGeneticLinkToRecordResource",
  "hasIdentifierType",
  "hasModificationDate",
  "hasOrHadAgentName",
  "hasOrHadAllMembersWithCategory",
  "hasOrHadAllMembersWithContentType",
  "hasOrHadAllMembersWithCreationDate",
  "hasOrHadAllMembersWithDocumentaryFormType",
  "hasOrHadAllMembersWithLanguage",
  "hasOrHadAllMembersWithLegalStatus",
  "hasOrHadAllMembersWithRecordState",
  "hasOrHadAnalogueInstantiation",
  "hasOrHadAppellation",
  "hasOrHadAuthorityOver",
  "hasOrHadCategory",
  "hasOrHadComponent",
  "hasOrHadConstituent",
  "hasOrHadController",
  "hasOrHadCoordinates",
  "hasOrHadCorporateBodyType",
  "hasOrHadCorrespondent",
  "hasOrHadDemographicGroup",
  "hasOrHadDerivedInstantiation",
  "hasOrHadDigitalInstantiation",
  "hasOrHadEmployer",
  "hasOrHadHolder",
  "hasOrHadIdentifier",
  "hasOrHadInstantiation",
  "hasOrHadIntellectualPropertyRightsHolder",
  "hasOrHadJurisdiction",
  "hasOrHadLanguage",
  "hasOrHadLeader",
  "hasOrHadLegalStatus",
  "hasOrHadLocation",
  "hasOrHadMainSubject",
  "hasOrHadManager",
  "hasOrHadMandateType",
  "hasOrHadMember",
  "hasOrHadMostMembersWithCreationDate",
  "hasOrHadName",
  "hasOrHadOccupationOfType",
  "hasOrHadOwner",
  "hasOrHadPart",
  "hasOrHadParticipant",
  "hasOrHadPhysicalLocation",
  "hasOrHadPlaceName",
  "hasOrHadPlaceType",
  "hasOrHadPosition",
  "hasOrHadRuleType",
  "hasOrHadSomeMembersWithCategory",
  "hasOrHadSomeMembersWithContentType",
  "hasOrHadSomeMembersWithCreationDate",
  "hasOrHadSomeMembersWithLanguage",
  "hasOrHadSomeMembersWithLegalStatus",
  "hasOrHadSomeMembersWithRecordState",
  "hasOrHadSomeMemberswithDocumentaryFormType",
  "hasOrHadSpouse",
  "hasOrHadStudent",
  "hasOrHadSubdivision",
  "hasOrHadSubevent",
  "hasOrHadSubject",
  "hasOrHadSubordinate",
  "hasOrHadTeacher",
  "hasOrHadTitle",
  "hasOrHadWorkRelationWith",
  "hasOrganicOrFunctionalProvenance",
  "hasOrganicProvenance",
  "hasOriginal",
  "hasPartTransitive",
  "hasProductionTechniqueType",
  "hasPublicationDate",
  "hasPublisher",
  "hasReceiver",
  "hasRecordSetType",
  "hasRecordState",
  "hasReply",
  "hasRepresentationType",
  "hasSender",
  "hasSibling",
  "hasSubdivisionTransitive",
  "hasSubeventTransitive",
  "hasSubordinateTransitive",
  "hasSuccessor",
  "hasUnitOfMeasurement",
  "hasWithin",
  "included",
  "includesOrIncluded",
  "includesTransitive",
  "intersects",
  "isAccumulatorOf",
  "isActivityTypeOf",
  "isAddresseeOf",
  "isAgentAssociatedWithAgent",
  "isAgentAssociatedWithPlace",
  "isAssociatedWithDate",
  "isAssociatedWithEvent",
  "isAssociatedWithPlace",
  "isAssociatedWithRule",
  "isAuthorOf",
  "isBeginningDateOf",
  "isBirthDateOf",
  "isBirthPlaceOf",
  "isCarrierTypeOf",
  "isChildOf",
  "isCollectorOf",
  "isComponentOfTransitive",
  "isConstituentOfTransitive",
  "isContainedByTransitive",
  "isContentTypeOf",
  "isCopyOf",
  "isCreationDateOf",
  "isCreatorOf",
  "isDateAssociatedWith",
  "isDateOfOccurrenceOf",
  "isDateTypeOf",
  "isDeathDateOf",
  "isDeathPlaceOf",
  "isDestructionDateOf",
  "isDirectComponentOf",
  "isDirectConstituentOf",
  "isDirectPartOf",
  "isDirectSubdivisionOf",
  "isDirectSubeventOf",
  "isDirectSubordinateTo",
  "isDirectlyContainedBy",
  "isDirectlyIncludedIn",
  "isDocumentaryFormTypeOf",
  "isDraftOf",
  "isEndDateOf",
  "isEquivalentTo",
  "isEventAssociatedWith",
  "isEventTypeOf",
  "isExtentOf",
  "isExtentTypeOf",
  "isFamilyTypeOf",
  "isFromUseDateOf",
  "isFunctionallyEquivalentTo",
  "isIdentifierTypeOf",
  "isIncludedInTransitive",
  "isInstantiationAssociatedWithInstantiation",
  "isLastUpdateDateOf",
  "isModificationDateOf",
  "isOrWasAdjacentTo",
  "isOrWasAffectedBy",
  "isOrWasAgentNameOf",
  "isOrWasAnalogueInstantiationOf",
  "isOrWasAppellationOf",
  "isOrWasCategoryOf",
  "isOrWasCategoryOfAllMembersOf",
  "isOrWasCategoryOfSomeMembersOf",
  "isOrWasComponentOf",
  "isOrWasConstituentOf",
  "isOrWasContainedBy",
  "isOrWasContentTypeOfAllMembersOf",
  "isOrWasContentTypeOfSomeMembersOf",
  "isOrWasControllerOf",
  "isOrWasCoordinatesOf",
  "isOrWasCorporateBodyTypeOf",
  "isOrWasCreationDateOfAllMembersOf",
  "isOrWasCreationDateOfMostMembersOf",
  "isOrWasCreationDateOfSomeMembersOf",
  "isOrWasDemographicGroupOf",
  "isOrWasDerivedFromInstantiation",
  "isOrWasDescribedBy",
  "isOrWasDigitalInstantiationOf",
  "isOrWasDocumentaryFormTypeOfAllMembersOf",
  "isOrWasDocumentaryFormTypeOfSomeMembersOf",
  "isOrWasEmployerOf",
  "isOrWasEnforcedBy",
  "isOrWasExpressedBy",
  "isOrWasHolderOf",
  "isOrWasHolderOfIntellectualPropertyRightsOf",
  "isOrWasIdentifierOf",
  "isOrWasIncludedIn",
  "isOrWasInstantiationOf",
  "isOrWasJurisdictionOf",
  "isOrWasLanguageOf",
  "isOrWasLanguageOfAllMembersOf",
  "isOrWasLanguageOfSomeMembersOf",
  "isOrWasLeaderOf",
  "isOrWasLegalStatusOf",
  "isOrWasLegalStatusOfAllMembersOf",
  "isOrWasLegalStatusOfSomeMembersOf",
  "isOrWasLocationOf",
  "isOrWasLocationOfAgent",
  "isOrWasMainSubjectOf",
  "isOrWasManagerOf",
  "isOrWasMandateTypeOf",
  "isOrWasMemberOf",
  "isOrWasNameOf",
  "isOrWasOccupationTypeOf",
  "isOrWasOccupiedBy",
  "isOrWasOwnerOf",
  "isOrWasPartOf",
  "isOrWasParticipantIn",
  "isOrWasPerformedBy",
  "isOrWasPhysicalLocationOf",
  "isOrWasPlaceNameOf",
  "isOrWasPlaceTypeOf",
  "isOrWasRecordStateOfAllMembersOf",
  "isOrWasRecordStateOfSomeMembersOf",
  "isOrWasRegulatedBy",
  "isOrWasResponsibleForEnforcing",
  "isOrWasRuleTypeOf",
  "isOrWasSubdivisionOf",
  "isOrWasSubeventOf",
  "isOrWasSubjectOf",
  "isOrWasSubordinateTo",
  "isOrWasTitleOf",
  "isOrWasUnderAuthorityOf",
  "isOrganicOrFunctionalProvenanceOf",
  "isOrganicProvenanceOf",
  "isOriginalOf",
  "isPartOfTransitive",
  "isPlaceAssociatedWith",
  "isPlaceAssociatedWithAgent",
  "isProductionTechniqueTypeOf",
  "isPublicationDateOf",
  "isPublisherOf",
  "isReceiverOf",
  "isRecordResourceAssociatedWithRecordResource",
  "isRecordSetTypeOf",
  "isRecordStateOf",
  "isRelatedTo",
  "isReplyTo",
  "isRepresentationTypeOf",
  "isResponsibleForIssuing",
  "isRuleAssociatedWith",
  "isSenderOf",
  "isSubdivisionOfTransitive",
  "isSubeventOfTransitive",
  "isSubordinateToTransitive",
  "isSuccessorOf",
  "isToUseDateOf",
  "isUnitOfMeasurementOf",
  "isWithin",
  "issuedBy",
  "knownBy",
  "knows",
  "knowsOf",
  "migratedFrom",
  "migratedInto",
  "occupiesOrOccupied",
  "occurredAtDate",
  "overlapsOrOverlapped",
  "performsOrPerformed",
  "precededInSequence",
  "precedesInSequenceTransitive",
  "precedesInTime",
  "precedesOrPreceded",
  "proxyFor",
  "proxyIn",
  "regulatesOrRegulated",
  "relationHasTarget",
  "resultedFromTheMergerOf",
  "resultedFromTheSplitOf",
  "resultsOrResultedFrom",
  "resultsOrResultedIn",
  "thingIsSourceOfRelation",
  "wasComponentOf",
  "wasConstituentOf",
  "wasContainedBy",
  "wasIncludedIn",
  "wasLastUpdatedAtDate",
  "wasMergedInto",
  "wasPartOf",
  "wasSplitInto",
  "wasSubdivisionOf",
  "wasSubeventOf",
  "wasSubordinateTo",
  "wasUsedFromDate",
  "wasUsedToDate"
]

/-- The fixed RiC-O datatype-property vocabulary, transcribed from the source. -/
def _ric_datatype_properties : List String := [
  "accruals",
  "accrualsStatus",
  "altimetricSystem",
  "altitude",
  "authenticityNote",
  "authorizingMandate",
  "beginningDate",
  "birthDate",
  "carrierExtent",
  "classification",
  "conditionsOfAccess",
  "conditionsOfUse",
  "creationDate",
  "date",
  "dateQualifier",
  "deathDate",
  "destructionDate",
  "endDate",
  "expressedDate",
  "generalDescription",
  "geodesicSystem",
  "geographicalCoordinates",
  "height",
  "history",
  "identifier",
  "instantiationExtent",
  "instantiationStructure",
  "integrityNote",
  "lastModificationDate",
  "latitude",
  "length",
  "location",
  "longitude",
  "measure",
  "modificationDate",
  "name",
  "normalizedDateValue",
  "normalizedValue",
  "physicalCharacteristicsNote",
  "physicalOrLogicalExtent",
  "productionTechnique",
  "publicationDate",
  "qualityOfRepresentationNote",
  "quantity",
  "recordResourceExtent",
  "recordResourceStructure",
  "referenceSystem",
  "relationCertainty",
  "relationSource",
  "relationState",
  "ruleFollowed",
  "scopeAndContent",
  "structure",
  "technicalCharacteristics",
  "textualValue",
  "title",
  "type",
  "unitOfMeasurement",
  "usedFromDate",
  "usedToDate",
  "width"
]

/-! ## Errors (the exception classes of the module) -/

/-- The exceptions the module can raise.  `noValue` is the internal
`_NoValueException`; `sourceNotIndividual` the internal
`_SourceNotIndividualException`; `noCellCloseEnough` the internal
`_NoCellCloseEnoughException`.  `spaceError` and `metacharacterError` are the
two message variants of `MetacharacterException`, carrying the data their
messages name (the offending label, and for the latter also the
metacharacter).  `noSource`/`noTarget` carry the arrow label and cell id
their messages name.  `keyError`, `indexError` and `valueError` model the
built-in Python exceptions of the same names escaping uncaught. -/
inductive Err where
  | nothingToParse
  | parse (msg : String)
  | notInRiC (name : String)
  | noValue
  | noCellCloseEnough
  | noSource (label : String) (cellId : String)
  | noTarget (label : String) (cellId : String)
  | sourceNotIndividual
  | arrowWithoutIndividualAsSource (cellId : String) (label : String)
  | spaceError (identifier : String)
  | metacharacterError (c : Char) (identifier : String)
  | keyError (key : String)
  | indexError
  | valueError
deriving DecidableEq

instance : DecidableEq (Except Err String) := fun x y =>
  match x, y with
  | .ok s, .ok t => if h : s = t then .isTrue (by rw [h]) else .isFalse (by simp [h])
  | .error e, .error f => if h : e = f then .isTrue (by rw [h]) else .isFalse (by simp [h])
  | .ok _, .error _ => .isFalse (by simp)
  | .error _, .ok _ => .isFalse (by simp)

/-- Fold a fallible step over a list, stopping at the first error (the
shape of every `for` loop of the source that can raise). -/
def foldE {α β : Type} (f : β → α → Except Err β) : β → List α → Except Err β
  | b, [] => .ok b
  | b, x :: xs =>
    match f b x with
    | .error e => .error e
    | .ok b2 => foldE f b2 xs

/-- Map a fallible function over a list, stopping at the first error. -/
def mapE {α β : Type} (f : α → Except Err β) : List α → Except Err (List β)
  | [] => .ok []
  | x :: xs =>
    match f x with
    | .error e => .error e
    | .ok y =>
      match mapE f xs with
      | .error e => .error e
      | .ok ys => .ok (y :: ys)

/-! ## Data model -/

/-- An OWL individual derived from a node of the graph (source class
`Individual`). -/
structure Individual where
  identifier : String
  ric_class : String
deriving DecidableEq

/-- An OWL object-property or datatype-property assertion derived from an
arrow of the graph (source class `Arrow`). -/
structure Arrow where
  identifier : String
  source : String
  target : String
deriving DecidableEq

/-- One element of the stream produced by `individuals_and_arrows`. -/
inductive Entry where
  | ind (i : Individual)
  | arr (a : Arrow)
deriving DecidableEq

/-- The capitalisation schemes accepted by `_parse_capitalisation_scheme`;
invalid scheme strings are rejected before the core runs, so the core is
embedded over this enumeration. -/
inductive CapScheme where
  | upperCamel
  | lowerCamel
  | flat
  | none
deriving DecidableEq

/-- Source `SerialisationConfig`.  The source field `prefix` is named `pfx`
here (`prefix` is a reserved word in Lean); `prefix_iri` is `pfx_iri`. -/
structure SerialisationConfig where
  infer_type_of_literals : Bool
  include_preamble : Bool
  ontology_iri : Option String
  pfx : Option String
  pfx_iri : Option String
  indentation : Nat
  include_label : Bool

/-! ## The HTML label parser (`NodeHTMLParser`) -/

/-- The internal state `NodeHTMLParser` accumulates while being fed markup:
the list of text chunks collected at div/blockquote boundaries, and the raw
data of the most recent `handle_data` call. -/
structure HTMLState where
  chunks : List String
  raw_data : String

/-- Source `NodeHTMLParser._prettify_linebreaks`: walk the chunk list,
concatenating non-empty chunks, and emitting one paragraph marker per run of
two or more consecutive empty chunks. -/
def _prettify_linebreaks_go : List String → Bool → Bool → String → List String
  | [], _, _, current => if current ≠ "" then [current] else []
  | chunk :: rest, previous_was_empty, paragraph_already_handled, current =>
    if chunk = "" then
      (if current ≠ "" then [current] else []) ++
      (if previous_was_empty && !paragraph_already_handled then
        "\n\n" :: _prettify_linebreaks_go rest previous_was_empty true ""
      else
        _prettify_linebreaks_go rest true paragraph_already_handled "")
    else
      _prettify_linebreaks_go rest false false (current ++ chunk)

/-- Source `NodeHTMLParser._prettify_linebreaks` on a chunk list (initial
state: `previous_was_empty = False`, `paragraph_already_handled = False`,
`current = ""`). -/
def _prettify_linebreaks (chunks : List String) : List String :=
  _prettify_linebreaks_go chunks false false ""

/-- Source `NodeHTMLParser.content`: the raw data if any was collected
outside div/blockquote structure, else the prettified chunks joined and
stripped. -/
def content (st : HTMLState) : String :=
  if st.raw_data ≠ "" then st.raw_data
  else pyStrip (joinAll (_prettify_linebreaks st.chunks))

/-- Feeding a markup-free string to a cleared `NodeHTMLParser`: with no tags
present, `handle_data` stores the whole string in `raw_data` and no chunks
are collected.  The cell values of the documents modelled in this
development are markup-free, so this is the only feed behaviour needed. -/
def feedPlain (s : String) : HTMLState := ⟨[], s⟩

/-! ## XML elements and the draw.io tree -/

/-- An XML element: tag, attributes and child elements
(`xml.etree.ElementTree.Element`). -/
inductive Elem where
  | mk (tag : String) (attrib : List (String × String)) (children : List Elem)

/-- The element's tag. -/
def Elem.tag : Elem → String
  | .mk t _ _ => t

/-- The element's attribute list. -/
def Elem.attrib : Elem → List (String × String)
  | .mk _ a _ => a

/-- The element's child elements. -/
def Elem.children : Elem → List Elem
  | .mk _ _ c => c

/-- Lookup in an attribute list (first binding wins). -/
def lookupAttr (k : String) : List (String × String) → Option String
  | [] => Option.none
  | (k2, v) :: rest => if k2 = k then some v else lookupAttr k rest

/-- Python `element.attrib[k]` as an `Option`. -/
def Elem.attr (e : Elem) (k : String) : Option String := lookupAttr k e.attrib

/-- The element's `id` attribute, defaulting to the empty string (every cell
in the documents modelled here carries an id). -/
def Elem.idAttr (e : Elem) : String := (e.attr "id").getD ""

mutual

/-- An element followed by all of its descendants, in document order. -/
def Elem.selfAndDescendants : Elem → List Elem
  | .mk t a cs => .mk t a cs :: descendantsOfList cs

/-- All elements of a forest together with their descendants, in document
order. -/
def descendantsOfList : List Elem → List Elem
  | [] => []
  | c :: cs => c.selfAndDescendants ++ descendantsOfList cs

end

/-- All strict descendants of an element in document order — the search
space of `findall(".//*...")` on the tree root. -/
def Elem.descendants (e : Elem) : List Elem := descendantsOfList e.children

/-- Source `DrawIOXMLTree._cell_with_id`: first element in document order
whose `id` attribute matches, else `ValueError`. -/
def _cell_with_id (tree : Elem) (i : String) : Except Err Elem :=
  match tree.descendants.find? (fun e => e.attr "id" == some i) with
  | some c => .ok c
  | Option.none => .error .valueError

/-- Source `DrawIOXMLTree._child_of`: all elements whose `parent` attribute
matches, in document order. -/
def _child_of (tree : Elem) (parent_id : String) : List Elem :=
  tree.descendants.filter (fun e => e.attr "parent" == some parent_id)

/-- Source `DrawIOXMLTree._value_of`: the stripped `value` attribute fed to
a cleared `NodeHTMLParser`, whose `content` is returned;
`_NoValueException` when the attribute is absent.  The values of the
documents modelled here are markup-free (see `feedPlain`). -/
def _value_of (cell : Elem) : Except Err String :=
  match cell.attr "value" with
  | Option.none => .error .noValue
  | some v => .ok (content (feedPlain (pyStrip v)))

/-- Source `DrawIOXMLTree._parent_of`: resolve the `parent` attribute to a
cell; `ParseException` when the attribute is missing. -/
def _parent_of (tree cell : Elem) : Except Err Elem :=
  match cell.attr "parent" with
  | Option.none => .error (.parse ("mxCell element with value beginning with rico: but with no parent: " ++ cell.idAttr))
  | some parent_id => _cell_with_id tree parent_id

/-- Source `DrawIOXMLTree._geometry`: the first `mxGeometry` child;
`ParseException` otherwise. -/
def _geometry (cell : Elem) : Except Err Elem :=
  match cell.children.find? (fun e => e.tag == "mxGeometry") with
  | some g => .ok g
  | Option.none => .error (.parse ("expecting an mxGeometry sub-element: " ++ cell.idAttr))

/-- Source `DrawIOXMLTree._x_and_y_in_geometry`. -/
def _x_and_y_in_geometry (geometry : Elem) (cell_id : String) : Except Err (Int × Int) :=
  match geometry.attr "x" with
  | Option.none => .error (.parse ("mxGeometry element without an x attribute: " ++ cell_id))
  | some xs =>
    match parseCoord xs with
    | Option.none => .error .valueError
    | some x =>
      match geometry.attr "y" with
      | Option.none => .error (.parse ("mxGeometry element without a y attribute: " ++ cell_id))
      | some ys =>
        match parseCoord ys with
        | Option.none => .error .valueError
        | some y => .ok (x, y)

/-- Source `DrawIOXMLTree._is_locked`: an endpoint is locked when the edge
cell has the corresponding explicit `source`/`target` link. -/
def _is_locked (cell : Elem) (as_attribute : String) : Bool :=
  (as_attribute == "sourcePoint" && (cell.attr "source").isSome) ||
  (as_attribute == "targetPoint" && (cell.attr "target").isSome)

/-- The `as_attribute is None` branch of `_start_or_end`: read the cell's
own geometry `x`/`y` directly.  This is the branch taken by the recursive
call `self._start_or_end(self._parent_of(cell), None)` in the source, which
therefore never recurses further up the ownership tree. -/
def _start_or_end_of_parent (tree cell : Elem) : Except Err (Int × Int) :=
  match _parent_of tree cell with
  | .error e => .error e
  | .ok parent =>
    match _geometry parent with
    | .error e => .error e
    | .ok geometry => _x_and_y_in_geometry geometry parent.idAttr

/-- The `for element in geometry` loop of `_start_or_end`: find the first
`mxPoint` child carrying the requested `as` attribute, read its
coordinates (absent coordinates are legal when the endpoint is locked),
and — when the cell's parent is not the diagram root "1" — add the parent's
own geometry coordinates obtained through the `None` branch. -/
def _start_or_end_loop (tree cell : Elem) (as_attribute : String) :
    List Elem → Except Err (Option (Int × Int))
  | [] => .error (.parse ("expecting an mxPoint sub-element with the requested as attribute: " ++ cell.idAttr))
  | e :: rest =>
    if e.tag ≠ "mxPoint" then _start_or_end_loop tree cell as_attribute rest
    else
      match e.attr "as" with
      | Option.none => .error (.parse ("mxPoint element without an as attribute: " ++ cell.idAttr))
      | some a =>
        if a ≠ as_attribute then _start_or_end_loop tree cell as_attribute rest
        else
          match e.attr "x" with
          | Option.none =>
            if _is_locked cell as_attribute then .ok Option.none
            else .error (.parse ("mxPoint element without an x attribute: " ++ cell.idAttr))
          | some xs =>
            match parseCoord xs with
            | Option.none => .error .valueError
            | some x =>
              match e.attr "y" with
              | Option.none =>
                if _is_locked cell as_attribute then .ok Option.none
                else .error (.parse ("mxPoint element without a y attribute: " ++ cell.idAttr))
              | some ys =>
                match parseCoord ys with
                | Option.none => .error .valueError
                | some y =>
                  match cell.attr "parent" with
                  | Option.none => .error (.keyError "parent")
                  | some parent_id =>
                    if parent_id = "1" then .ok (some (x, y))
                    else
                      match _start_or_end_of_parent tree cell with
                      | .error err => .error err
                      | .ok (parent_x, parent_y) => .ok (some (x + parent_x, y + parent_y))

/-- Source `DrawIOXMLTree._start_or_end`. -/
def _start_or_end (tree cell : Elem) (as_attribute : Option String) :
    Except Err (Option (Int × Int)) :=
  match _geometry cell with
  | .error e => .error e
  | .ok geometry =>
    match as_attribute with
    | Option.none =>
      match _x_and_y_in_geometry geometry cell.idAttr with
      | .error e => .error e
      | .ok xy => .ok (some xy)
    | some a =>
      if geometry.children.isEmpty then
        .error (.parse ("expecting the mxGeometry element to have sub-elements: " ++ cell.idAttr))
      else _start_or_end_loop tree cell a geometry.children

/-- Source `DrawIOXMLTree._arrow_start`. -/
def _arrow_start (tree arrow_cell : Elem) : Except Err (Option (Int × Int)) :=
  _start_or_end tree arrow_cell (some "sourcePoint")

/-- Source `DrawIOXMLTree._arrow_end`. -/
def _arrow_end (tree arrow_cell : Elem) : Except Err (Option (Int × Int)) :=
  _start_or_end tree arrow_cell (some "targetPoint")

/-- Cell geometry as (x, y, width, height). -/
abbrev Dimensions := Int × Int × Int × Int

/-- Source `DrawIOXMLTree._dimensions`. -/
def _dimensions (individual_cell : Elem) : Except Err Dimensions :=
  match _geometry individual_cell with
  | .error e => .error e
  | .ok geometry =>
    match geometry.attr "x", geometry.attr "y", geometry.attr "width", geometry.attr "height" with
    | Option.none, _, _, _ => .error (.parse ("mxGeometry without an x attribute: " ++ individual_cell.idAttr))
    | some _, Option.none, _, _ => .error (.parse ("mxGeometry without a y attribute: " ++ individual_cell.idAttr))
    | some _, some _, Option.none, _ => .error (.parse ("mxGeometry without a width attribute: " ++ individual_cell.idAttr))
    | some _, some _, some _, Option.none => .error (.parse ("mxGeometry without a height attribute: " ++ individual_cell.idAttr))
    | some xs, some ys, some ws, some hs =>
      match parseCoord xs, parseCoord ys, parseCoord ws, parseCoord hs with
      | some x, some y, some w, some h => .ok (x, y, w, h)
      | _, _, _, _ => .error .valueError

/-- Source `DrawIOXMLTree._is_possible_literal`: direct child of the diagram
root "1" whose style contains `rounded=1` (missing attributes yield
`False`). -/
def _is_possible_literal (cell : Elem) : Bool :=
  match cell.attr "parent" with
  | Option.none => false
  | some p =>
    if p ≠ "1" then false
    else
      match cell.attr "style" with
      | Option.none => false
      | some style => decide ("rounded=1".data <:+: style.data)

/-- The arrow data recorded per relation-edge: the edge cell, its optional
start and end points, and its label. -/
abbrev ArrowData := Elem × Option (Int × Int) × Option (Int × Int) × String

/-- The loop of `_arrow_label` over the edge cell's children: the first one
whose style contains `edgeLabel` provides the label via `_value_of`. -/
def _arrow_label_loop : List Elem → Except Err String
  | [] => .error .noValue
  | c :: rest =>
    match c.attr "style" with
    | Option.none => _arrow_label_loop rest
    | some style =>
      if decide ("edgeLabel".data <:+: style.data) then _value_of c
      else _arrow_label_loop rest

/-- Source `DrawIOXMLTree._arrow_label`. -/
def _arrow_label (tree arrow_cell : Elem) : Except Err String :=
  _arrow_label_loop (_child_of tree arrow_cell.idAttr)

/-- Source `DrawIOXMLTree._add_arrow_if_find_label`: record the edge with
its endpoints and label; a missing label (`_NoValueException`) means the
cell is silently dropped. -/
def _add_arrow_if_find_label (tree : Elem) (arrows : List ArrowData) (cell : Elem) :
    Except Err (List ArrowData) :=
  match (do
    let label ← _arrow_label tree cell
    let s ← _arrow_start tree cell
    let e ← _arrow_end tree cell
    pure ((cell, s, e, label) : ArrowData) : Except Err ArrowData) with
  | .ok arrow_data => .ok (arrows ++ [arrow_data])
  | .error .noValue => .ok arrows
  | .error e => .error e

/-! ## The parsed tree state and `_extract_individual_and_arrow_and_literal_cells` -/

/-- The state a `DrawIOXMLTree` instance holds after its constructor ran:
the XML tree and the three classified cell lists. -/
structure DrawIOXMLTree where
  tree : Elem
  individual_cells : List (Elem × Individual × Dimensions)
  arrow_cells : List ArrowData
  literal_cells : List (Elem × Dimensions)

/-- Source `_verify_is_ric_class`. -/
def _verify_is_ric_class (ric_class : String) : Except Err Unit :=
  if ric_class ∈ _ric_classes then .ok () else .error (.notInRiC ric_class)

/-- The `for ric_class in cell_value.split("rico:")[1:]` loop: one
`Individual` per class token, each validated against the vocabulary and
carrying the parent's identifier and dimensions (the parent's dimensions
are recomputed inside the loop, after the vocabulary check, as in the
source). -/
def _individuals_loop (cell parent : Elem) (individual_identifier : String) :
    List String → List (Elem × Individual × Dimensions) →
    Except Err (List (Elem × Individual × Dimensions))
  | [], acc => .ok acc
  | chunk :: rest, acc =>
    let ric_class := pyStrip chunk
    match _verify_is_ric_class ric_class with
    | .error e => .error e
    | .ok _ =>
      match _dimensions parent with
      | .error e => .error e
      | .ok parent_dimensions =>
        _individuals_loop cell parent individual_identifier rest
          (acc ++ [(cell, ⟨individual_identifier, ric_class⟩, parent_dimensions)])

/-- One iteration of the extraction loop of
`_extract_individual_and_arrow_and_literal_cells`, threading the three
classified lists. -/
def _process_cell (tree : Elem) (st : DrawIOXMLTree) (cell : Elem) :
    Except Err DrawIOXMLTree :=
  if cell.tag ≠ "mxCell" then
    .error (.parse ("expecting an element with tag mxCell, but had tag " ++ cell.tag))
  else
    match _value_of cell with
    | .error _ => .ok st
    | .ok cell_value =>
      if cell_value = "" then
        match _add_arrow_if_find_label tree st.arrow_cells cell with
        | .error e => .error e
        | .ok arrows => .ok { st with arrow_cells := arrows }
      else if ¬ pyStartsWith cell_value "rico:" then
        if _is_possible_literal cell then
          match _dimensions cell with
          | .error e => .error e
          | .ok d => .ok { st with literal_cells := st.literal_cells ++ [(cell, d)] }
        else .ok st
      else
        match _parent_of tree cell with
        | .error e => .error e
        | .ok parent =>
          match _value_of parent with
          | .error _ =>
            -- the parent has no label: treat this cell as a relation-edge
            -- candidate, using its raw (unprocessed) value attribute
            match _arrow_start tree cell with
            | .error e => .error e
            | .ok s =>
              match _arrow_end tree cell with
              | .error e => .error e
              | .ok en =>
                let raw := (cell.attr "value").getD ""
                .ok { st with arrow_cells := st.arrow_cells ++ [(cell, s, en, raw)] }
          | .ok individual_identifier =>
            if individual_identifier = "" then .ok st
            else
              match _individuals_loop cell parent individual_identifier
                  ((pySplitOn cell_value "rico:").tail) [] with
              | .error e => .error e
              | .ok added => .ok { st with individual_cells := st.individual_cells ++ added }

/-- Source `DrawIOXMLTree.__post_init__` /
`_extract_individual_and_arrow_and_literal_cells`: locate the cell
container at `tree[0][0][0]` (missing or empty means
`NothingToParseException`) and classify each of its children. -/
def DrawIOXMLTree.build (tree : Elem) : Except Err DrawIOXMLTree :=
  match tree.children with
  | [] => .error .nothingToParse
  | c0 :: _ =>
    match c0.children with
    | [] => .error .nothingToParse
    | c1 :: _ =>
      match c1.children with
      | [] => .error .nothingToParse
      | container :: _ =>
        if container.children.isEmpty then .error .nothingToParse
        else foldE (fun st cell => _process_cell tree st cell) ⟨tree, [], [], []⟩
          container.children

/-! ## Endpoint resolution -/

/-- Source `DrawIOXMLTree._close_enough`: the endpoint lies within the
cell's bounding box expanded by `max_gap` on every side. -/
def _close_enough (arrow_endpoint : Int × Int) (cell_dimensions : Dimensions)
    (max_gap : Int) : Bool :=
  let (endpoint_x, endpoint_y) := arrow_endpoint
  let (cell_x, cell_y, cell_width, cell_height) := cell_dimensions
  decide (cell_x - max_gap ≤ endpoint_x) && decide (endpoint_x ≤ cell_x + cell_width + max_gap) &&
  decide (cell_y - max_gap ≤ endpoint_y) && decide (endpoint_y ≤ cell_y + cell_height + max_gap)

/-- Source `DrawIOXMLTree._cell_close_to`: first close-enough individual
cell (in document order), else first close-enough literal cell, else
`_NoCellCloseEnoughException`. -/
def _cell_close_to (t : DrawIOXMLTree) (arrow_endpoint : Int × Int) (max_gap : Int) :
    Except Err Elem :=
  match t.individual_cells.find? (fun x => _close_enough arrow_endpoint x.2.2 max_gap) with
  | some x => .ok x.1
  | Option.none =>
    match t.literal_cells.find? (fun x => _close_enough arrow_endpoint x.2 max_gap) with
    | some x => .ok x.1
    | Option.none => .error .noCellCloseEnough

/-- Source `DrawIOXMLTree._defines_individual`. -/
def _defines_individual (t : DrawIOXMLTree) (identifier : String) : Bool :=
  t.individual_cells.any (fun x => x.2.1.identifier == identifier)

/-- Source `DrawIOXMLTree._source_or_target`: a cell labelled with a type
declaration resolves to its parent's label; otherwise the cell's own label
is the value, which for a source must name an established individual. -/
def _source_or_target (t : DrawIOXMLTree) (source_or_target_cell : Elem)
    (must_be_individual : Bool) : Except Err String :=
  match _value_of source_or_target_cell with
  | .error e => .error e
  | .ok value =>
    if pyStartsWith value "rico:" then
      match _parent_of t.tree source_or_target_cell with
      | .error e => .error e
      | .ok parent => _value_of parent
    else if must_be_individual && ¬ _defines_individual t value then
      .error .sourceNotIndividual
    else .ok value

/-- The shared shape of the source and target stanzas of `_arrow`: use the
explicit link when present (a dangling link id is a `ValueError`);
otherwise, in strict mode or with no recovered point, or when no cell is
close enough to the point, raise `NoSourceException` naming the arrow label
and cell id.  In the source this code appears twice, once for `source` and
once — repeated verbatim, including the `NoSourceException` — for
`target`. -/
def _linked_or_close_cell (t : DrawIOXMLTree) (arrow_cell : Elem)
    (link_attribute : String) (point : Option (Int × Int)) (arrow_label : String)
    (strict_mode : Bool) (max_gap : Int) : Except Err Elem :=
  match arrow_cell.attr link_attribute with
  | some link_id => _cell_with_id t.tree link_id
  | Option.none =>
    if strict_mode then .error (.noSource arrow_label arrow_cell.idAttr)
    else
      match point with
      | Option.none => .error (.noSource arrow_label arrow_cell.idAttr)
      | some p =>
        match _cell_close_to t p max_gap with
        | .ok c => .ok c
        | .error _ => .error (.noSource arrow_label arrow_cell.idAttr)

/-- Source `DrawIOXMLTree._arrow`: resolve the source (explicit link, else
— in non-strict mode — proximity to the recovered start point), check it
denotes an individual, resolve the target the same way (the source raises
`NoSourceException` on the target path as well), and build the `Arrow`
with the label stripped of its `rico:` namespace. -/
def _arrow (t : DrawIOXMLTree) (arrow_data : ArrowData) (strict_mode : Bool)
    (max_gap : Int) : Except Err Arrow :=
  let (arrow_cell, arrow_start, arrow_end, arrow_label) := arrow_data
  match _linked_or_close_cell t arrow_cell "source" arrow_start arrow_label
      strict_mode max_gap with
  | .error e => .error e
  | .ok source_cell =>
    match _source_or_target t source_cell true with
    | .error .sourceNotIndividual =>
      .error (.arrowWithoutIndividualAsSource arrow_cell.idAttr arrow_label)
    | .error e => .error e
    | .ok source =>
      match _linked_or_close_cell t arrow_cell "target" arrow_end arrow_label
          strict_mode max_gap with
      | .error e => .error e
      | .ok target_cell =>
        match _source_or_target t target_cell false with
        | .error e => .error e
        | .ok target =>
          match pySplitOn (pyStrip arrow_label) "rico:" with
          | _ :: identifier :: _ => .ok ⟨identifier, source, target⟩
          | _ => .error .indexError

/-- Source `DrawIOXMLTree.individuals_and_arrows`: all individuals first,
then each arrow resolved through `_arrow`. -/
def individuals_and_arrows (t : DrawIOXMLTree) (strict_mode : Bool) (max_gap : Int) :
    Except Err (List Entry) :=
  match mapE (fun arrow_data => _arrow t arrow_data strict_mode max_gap) t.arrow_cells with
  | .error e => .error e
  | .ok arrows => .ok (t.individual_cells.map (fun x => .ind x.2.1) ++ arrows.map .arr)

/-! ## Identifier sanitisation -/

/-- The fixed OWL metacharacter set of the source (all single characters;
`Char.ofNat 39` is the apostrophe, `Char.ofNat 34` the double quote). -/
def OWL_METACHARACTERS : List Char :=
  ['(', ')', '[', ']', '/', ',', ':', '.', Char.ofNat 39, Char.ofNat 34]

/-- Source `_handle_spaces`: split the identifier on whitespace, adjust the
capitalisation of each word per the scheme, and join with the space
substitute.  The `ValueError` branch for an invalid scheme is unreachable
(schemes are validated before the core runs); `words[0]` raises
`IndexError` for a whitespace-only identifier under `lower-camel`. -/
def _handle_spaces (identifier : String) (space_substitute : String)
    (capitalisation_scheme : CapScheme) : Except Err String :=
  match capitalisation_scheme with
  | .upperCamel =>
    .ok (joinSep space_substitute ((pySplitWhitespace identifier).map capFirst))
  | .lowerCamel =>
    match pySplitWhitespace identifier with
    | [] => .error .indexError
    | w :: ws => .ok (joinSep space_substitute (lowFirst w :: ws.map capFirst))
  | .flat =>
    .ok (joinSep space_substitute ((pySplitWhitespace identifier).map lowFirst))
  | .none =>
    .ok (joinSep space_substitute (pySplitWhitespace identifier))

/-- The first configured substitution for a metacharacter (the loop over
`metacharacter_substitutes` in `_replace_metacharacter`). -/
def findSubstitute (metacharacter : Char) : List (Char × String) → Option String
  | [] => Option.none
  | (to_replace, replacement) :: rest =>
    if to_replace = metacharacter then some replacement
    else findSubstitute metacharacter rest

/-- Source `_replace_metacharacter`: an identifier free of the
metacharacter is returned untouched; otherwise the first configured
substitution is applied, and the absence of one is a
`MetacharacterException` naming the metacharacter and the identifier. -/
def _replace_metacharacter (metacharacter : Char) (identifier : String)
    (metacharacter_substitutes : List (Char × String)) : Except Err String :=
  if ¬ pyContainsChar identifier metacharacter then .ok identifier
  else
    match findSubstitute metacharacter metacharacter_substitutes with
    | some replacement => .ok (replaceChar identifier metacharacter replacement)
    | Option.none => .error (.metacharacterError metacharacter identifier)

/-- Source `_replace_metacharacters`: handle spaces (an unconfigured space
substitute is a `MetacharacterException` naming the identifier), lower the
first letter for space-free identifiers under `lower-camel`/`flat`
(`IndexError` on the empty identifier), then substitute each OWL
metacharacter in turn. -/
def _replace_metacharacters (identifier : String)
    (metacharacter_substitutes : List (Char × String))
    (space_substitute : Option String) (capitalisation_scheme : CapScheme) :
    Except Err String :=
  let afterSpaces : Except Err String :=
    if pyContainsChar identifier ' ' then
      match space_substitute with
      | Option.none => .error (.spaceError identifier)
      | some substitute => _handle_spaces identifier substitute capitalisation_scheme
    else
      match capitalisation_scheme with
      | .lowerCamel | .flat =>
        match identifier.data with
        | [] => .error .indexError
        | c :: rest => .ok (String.mk (c.toLower :: rest))
      | _ => .ok identifier
  match afterSpaces with
  | .error e => .error e
  | .ok identifier =>
    foldE
      (fun identifier metacharacter =>
        _replace_metacharacter metacharacter identifier metacharacter_substitutes)
      identifier OWL_METACHARACTERS

/-! ## Block assembly (`individual_blocks`) -/

/-- The per-entity data: an insertion-ordered association from `"Types"`
and relation names to duplicate-free value lists (Python inner `dict` of
`set`s). -/
abbrev Facts := List (String × List String)

/-- The full mapping from `(sanitised identifier, original label)` to the
entity's types and facts, in insertion order (Python `Blocks = dict`). -/
abbrev Blocks := List ((String × String) × Facts)

/-- First value bound to a key in an association list (Python `d[k]`
lookup, `KeyError` as `Option.none`). -/
def getA {κ β : Type} [DecidableEq κ] (k : κ) : List (κ × β) → Option β
  | [] => Option.none
  | (k2, v) :: rest => if k2 = k then some v else getA k rest

/-- Replace the value bound to a key, leaving order intact (Python
`d[k] = v` on a present key). -/
def setA {κ β : Type} [DecidableEq κ] (k : κ) (v : β) : List (κ × β) → List (κ × β)
  | [] => []
  | (k2, v2) :: rest => if k2 = k then (k2, v) :: rest else (k2, v2) :: setA k v rest

/-- Remove the binding of a key (Python `del d[k]`). -/
def removeA {κ β : Type} [DecidableEq κ] (k : κ) : List (κ × β) → List (κ × β)
  | [] => []
  | (k2, v2) :: rest => if k2 = k then rest else (k2, v2) :: removeA k rest

/-- Python `set.add`: append unless already present. -/
def setAdd (x : String) (l : List String) : List String :=
  if x ∈ l then l else l ++ [x]

/-- Source `_add_individual_type`: sanitise the identifier and add the
class to the `"Types"` set of the block keyed by the sanitised/original
pair, creating block or set as needed. -/
def _add_individual_type (blocks : Blocks) (individual : Individual)
    (metacharacter_substitutes : List (Char × String))
    (space_substitute : Option String) (capitalisation_scheme : CapScheme) :
    Except Err Blocks :=
  match _replace_metacharacters individual.identifier metacharacter_substitutes
      space_substitute capitalisation_scheme with
  | .error e => .error e
  | .ok individual_id =>
    let key := (individual_id, individual.identifier)
    match getA key blocks with
    | Option.none => .ok (blocks ++ [(key, [("Types", [individual.ric_class])])])
    | some block =>
      match getA "Types" block with
      | some types => .ok (setA key (setA "Types" (setAdd individual.ric_class types) block) blocks)
      | Option.none => .ok (setA key (block ++ [("Types", [individual.ric_class])]) blocks)

/-- One iteration of the `individual_blocks` loop. -/
def _blocks_step (metacharacter_substitutes : List (Char × String))
    (space_substitute : Option String) (capitalisation_scheme : CapScheme)
    (blocks : Blocks) : Entry → Except Err Blocks
  | .ind individual =>
    _add_individual_type blocks individual metacharacter_substitutes
      space_substitute capitalisation_scheme
  | .arr arrow =>
    let targetResult : Except Err String :=
      if arrow.identifier ∈ _ric_object_properties then
        _replace_metacharacters arrow.target metacharacter_substitutes
          space_substitute capitalisation_scheme
      else if arrow.identifier ∈ _ric_datatype_properties then .ok arrow.target
      else .error (.notInRiC arrow.identifier)
    match targetResult with
    | .error e => .error e
    | .ok target_identifier =>
      match _replace_metacharacters arrow.source metacharacter_substitutes
          space_substitute capitalisation_scheme with
      | .error e => .error e
      | .ok source_identifier =>
        let key := (source_identifier, arrow.source)
        match getA key blocks with
        | Option.none => .ok (blocks ++ [(key, [(arrow.identifier, [target_identifier])])])
        | some block =>
          match getA arrow.identifier block with
          | some values =>
            .ok (setA key (setA arrow.identifier (setAdd target_identifier values) block) blocks)
          | Option.none =>
            .ok (setA key (block ++ [(arrow.identifier, [target_identifier])]) blocks)

/-- Source `individual_blocks`: fold the stream of individuals and arrows
into the block mapping. -/
def individual_blocks (entries : List Entry)
    (metacharacter_substitutes : List (Char × String))
    (space_substitute : Option String) (capitalisation_scheme : CapScheme) :
    Except Err Blocks :=
  foldE (_blocks_step metacharacter_substitutes space_substitute capitalisation_scheme)
    [] entries

/-! ## Serialisation -/

/-- Python strptime component patterns: exactly four digits (`%Y`). -/
def isYear (l : List Char) : Bool :=
  l.length = 4 && l.all Char.isDigit

/-- One or two digits whose value lies in a range (`%m`, `%d`, `%H`, `%M`,
`%S` patterns combined with the validation `datetime` performs). -/
def isNumIn (lo hi : Nat) (l : List Char) : Bool :=
  (l.length = 1 || l.length = 2) && l.all Char.isDigit &&
    match digitsToNat l with
    | some n => decide (lo ≤ n) && decide (n ≤ hi)
    | Option.none => false

/-- Day count of a month in the proleptic Gregorian calendar (the
validation `datetime.strptime` performs when constructing the date). -/
def daysInMonth (year month : Nat) : Nat :=
  if month = 2 then
    if year % 4 = 0 && (year % 100 ≠ 0 || year % 400 = 0) then 29 else 28
  else if month = 4 || month = 6 || month = 9 || month = 11 then 30
  else 31

/-- Whether `datetime.strptime(s, "%Y-%m-%d")` succeeds. -/
def matchesDateYMD (s : String) : Bool :=
  match pySplitOn s "-" with
  | [y, m, d] =>
    isYear y.data && isNumIn 1 12 m.data && isNumIn 1 31 d.data &&
      match digitsToNat y.data, digitsToNat m.data, digitsToNat d.data with
      | some yn, some mn, some dn => decide (dn ≤ daysInMonth yn mn) && decide (1 ≤ dn)
      | _, _, _ => false
  | _ => false

/-- Whether `datetime.strptime(s, "%Y-%m-%dT%H-%M-%S")` succeeds (the source
writes dashes, not colons, between the time components). -/
def matchesDateTimeDashes (s : String) : Bool :=
  match pySplitOn s "T" with
  | [d, t] =>
    matchesDateYMD d &&
      match pySplitOn t "-" with
      | [h, m, sec] => isNumIn 0 23 h.data && isNumIn 0 59 m.data && isNumIn 0 59 sec.data
      | _ => false
  | _ => false

/-- Whether `datetime.strptime(s, "%H:%M")` succeeds. -/
def matchesHM (s : String) : Bool :=
  match pySplitOn s ":" with
  | [h, m] => isNumIn 0 23 h.data && isNumIn 0 59 m.data
  | _ => false

/-- Source `_infer_type`: try integer, then date, then the two date-time
forms; the branch dispatch indexes `literal[-1]` and `literal[-6]`, raising
`IndexError` on the empty string and on unmatched strings shorter than six
characters.  The `Z`-suffix branch re-parses only the final character and
therefore never succeeds.  The final branch passes its arguments to
`strptime` swapped (format and data exchanged), so it succeeds only when
the literal, read as a format, reproduces the fixed format text — that is,
exactly for the percent-escaped literal `"%%Y-%%m-%%dT%%H-%%M-%%S"`. -/
def _infer_type (literal : String) : Except Err String :=
  if pyIsNumeric literal then .ok ("\"" ++ literal ++ "\"^^xsd:integer")
  else if matchesDateYMD literal then .ok ("\"" ++ literal ++ "\"^^xsd:date")
  else
    match literal.data.getLast? with
    | Option.none => .error .indexError
    | some lastChar =>
      if lastChar = 'Z' then .ok ("\"" ++ literal ++ "\"")
      else if literal.data.length < 6 then .error .indexError
      else
        let signChar := literal.data.getD (literal.data.length - 6) ' '
        if signChar = '+' || signChar = '-' then
          if matchesDateTimeDashes (String.mk (literal.data.take (literal.data.length - 6))) &&
              matchesHM (String.mk (literal.data.drop (literal.data.length - 5))) then
            .ok ("\"" ++ literal ++ "\"^^xsd:dateTime")
          else .ok ("\"" ++ literal ++ "\"")
        else if literal = "%%Y-%%m-%%dT%%H-%%M-%%S" then
          .ok ("\"" ++ literal ++ "\"^^xsd:dateTime")
        else .ok ("\"" ++ literal ++ "\"")

/-- Python truthiness of the optional prefix: `None` and the empty string
yield no prefix. -/
def pfxString (pfx : Option String) : String :=
  match pfx with
  | some p => if p = "" then "" else p ++ ":"
  | Option.none => ""

/-- The per-value body of the `_serialise_facts` generator: a
datatype-property value is type-inferred or quoted, an object-property
value is prefixed. -/
def _serialise_one_fact (prefix_string : String) (infer_type_of_literals : Bool)
    (_property value : String) : Except Err String :=
  let formattedResult : Except Err String :=
    if _property ∈ _ric_datatype_properties then
      if infer_type_of_literals then _infer_type value
      else .ok ("\"" ++ value ++ "\"")
    else .ok (prefix_string ++ value)
  match formattedResult with
  | .error e => .error e
  | .ok formatted_value => .ok ("rico:" ++ _property ++ " " ++ formatted_value)

/-- One (property, value set) iteration of the `_serialise_facts`
generator: the sorted values each become a line. -/
def _serialise_facts_step (prefix_string : String) (infer_type_of_literals : Bool)
    (acc : List String) (pv : String × List String) : Except Err (List String) :=
  match pv with
  | (_property, values) =>
    match mapE (_serialise_one_fact prefix_string infer_type_of_literals _property)
        (sortedStrings values) with
    | .error e => .error e
    | .ok lines => .ok (acc ++ lines)

/-- Source `_serialise_facts`: one `rico:property value` line per (property,
sorted value); the generator is materialised as a list. -/
def _serialise_facts (facts : Facts) (infer_type_of_literals : Bool)
    (pfx : Option String) : Except Err (List String) :=
  foldE (_serialise_facts_step (pfxString pfx) infer_type_of_literals) [] facts

/-- Source `_serialise_block`: header (optionally with the original label
as an `rdfs:label` annotation), sorted `Types` line (a block without a
`"Types"` entry raises `KeyError`), and — when facts remain — the `Facts`
lines joined exactly as the source joins them. -/
def _serialise_block (individual_identifier individual_label : String)
    (types_and_facts : Facts) (serialisation_config : SerialisationConfig) :
    Except Err String :=
  let indentation := serialisation_config.indentation
  let prefix_string := pfxString serialisation_config.pfx
  let header0 := "Individual: " ++ prefix_string ++ individual_identifier
  let header :=
    if serialisation_config.include_label then
      header0 ++ "\n" ++ spaces indentation ++ "Annotations:" ++ "\n" ++
        spaces (indentation * 2) ++ "rdfs:label \"" ++ individual_label ++ "\""
    else header0
  match getA "Types" types_and_facts with
  | Option.none => .error (.keyError "Types")
  | some types =>
    let types_string :=
      joinSep ", " ((sortedStrings types).map (fun t => "rico:" ++ t))
    let facts := removeA "Types" types_and_facts
    if facts.isEmpty then
      .ok (header ++ "\n" ++ spaces indentation ++ "Types: " ++ types_string ++ "\n\n")
    else
      match _serialise_facts facts serialisation_config.infer_type_of_literals
          serialisation_config.pfx with
      | .error e => .error e
      | .ok serialised_facts =>
        match serialised_facts.getLast? with
        | Option.none => .error .indexError
        | some lastFact =>
          let sep := ",\n" ++ spaces (indentation * 2)
          let facts_string0 := joinSep sep serialised_facts.dropLast
          let facts_string :=
            if serialised_facts.length > 1 then facts_string0 ++ sep ++ lastFact
            else facts_string0 ++ lastFact
          .ok (header ++ "\n" ++ spaces indentation ++ "Types: " ++ types_string ++ "\n" ++
            spaces indentation ++ "Facts:\n" ++ spaces (indentation * 2) ++ facts_string ++ "\n\n")

/-- Source `_preamble`.  `now` stands for
`datetime.strftime(datetime.now(), "%Y-%m-%dT%H-%M-%S")`, read only when no
(non-empty) ontology IRI is configured. -/
def _preamble (serialisation_config : SerialisationConfig) (now : String) : String :=
  let ontology_iri_string :=
    match serialisation_config.ontology_iri with
    | some iri => if iri = "" then "ontology://generated-from-draw-io/" ++ now else iri
    | Option.none => "ontology://generated-from-draw-io/" ++ now
  let prefix_string :=
    match serialisation_config.pfx with
    | some p => p
    | Option.none => ""
  let pfx_iri :=
    match serialisation_config.pfx_iri with
    | some pi => if pi = "" then "<" ++ ontology_iri_string ++ "#>" else "<" ++ pi ++ ">"
    | Option.none => "<" ++ ontology_iri_string ++ "#>"
  let head :=
    if serialisation_config.include_label then
      "Prefix: rdfs: <http://www.w3.org/2000/01/rdf-schema#>\n"
    else ""
  head ++ "Prefix: rico: <https://www.ica.org/standards/RiC/ontology#>\n" ++
    "Prefix: " ++ prefix_string ++ ": " ++ pfx_iri ++ "\n" ++
    "Ontology: <" ++ ontology_iri_string ++ ">\n" ++
    spaces serialisation_config.indentation ++
    "Import: <https://www.ica.org/standards/RiC/ontology>\n\n"

/-- One block iteration of `serialise`. -/
def _serialise_blocks_step (serialisation_config : SerialisationConfig)
    (serialised : String) (kv : (String × String) × Facts) : Except Err String :=
  match kv with
  | ((individual_id, individual_label), types_and_facts) =>
    match _serialise_block individual_id individual_label types_and_facts
        serialisation_config with
    | .error e => .error e
    | .ok s => .ok (serialised ++ s)

/-- Source `serialise`: optional preamble followed by each block in
insertion order. -/
def serialise (blocks : Blocks) (serialisation_config : SerialisationConfig)
    (now : String) : Except Err String :=
  let init :=
    if serialisation_config.include_preamble then _preamble serialisation_config now
    else ""
  foldE (_serialise_blocks_step serialisation_config) init blocks

/-- The full pipeline as `_run` composes it: parse the tree, stream the
individuals and arrows, assemble the blocks, serialise. -/
def pipeline (root : Elem) (strict_mode : Bool) (max_gap : Int)
    (metacharacter_substitutes : List (Char × String))
    (space_substitute : Option String) (capitalisation_scheme : CapScheme)
    (serialisation_config : SerialisationConfig) (now : String) :
    Except Err String :=
  match DrawIOXMLTree.build root with
  | .error e => .error e
  | .ok t =>
    match individuals_and_arrows t strict_mode max_gap with
    | .error e => .error e
    | .ok entries =>
      match individual_blocks entries metacharacter_substitutes space_substitute
          capitalisation_scheme with
      | .error e => .error e
      | .ok blocks => serialise blocks serialisation_config now

/-! ## Default configuration constants of the source -/

/-- Source `DEFAULT_MAX_GAP`. -/
def DEFAULT_MAX_GAP : Int := 10

/-- Source `DEFAULT_INDENTATION`. -/
def DEFAULT_INDENTATION : Nat := 2

/-! ## Concrete documents used by the theorems -/

/-- Geometry attribute list (x, y, width, height). -/
def geomAttrs (x y w h : String) : List (String × String) :=
  [("x", x), ("y", y), ("width", w), ("height", h)]

/-- The end-to-end scenario document: a node labelled `rico:Person` inside
the group labelled `Jane Doe`, a node labelled `rico:Place` inside the
group labelled `Oslo`, and an edge explicitly linked source to target whose
label carrier reads `rico:hasBirthPlace`. -/
def endToEndDoc : Elem :=
  .mk "mxfile" [] [
    .mk "diagram" [] [
      .mk "mxGraphModel" [] [
        .mk "root" [] [
          .mk "mxCell" [("id", "0")] [],
          .mk "mxCell" [("id", "1"), ("parent", "0")] [],
          .mk "mxCell" [("id", "g1"), ("value", "Jane Doe"), ("parent", "1"), ("style", "group")]
            [.mk "mxGeometry" (geomAttrs "40" "40" "160" "80") []],
          .mk "mxCell" [("id", "n1"), ("value", "rico:Person"), ("parent", "g1"), ("style", "text")] [],
          .mk "mxCell" [("id", "g2"), ("value", "Oslo"), ("parent", "1"), ("style", "group")]
            [.mk "mxGeometry" (geomAttrs "400" "40" "120" "60") []],
          .mk "mxCell" [("id", "n2"), ("value", "rico:Place"), ("parent", "g2"), ("style", "text")] [],
          .mk "mxCell" [("id", "e1"), ("value", ""), ("parent", "1"), ("source", "n1"), ("target", "n2"), ("style", "edgeStyle")]
            [.mk "mxGeometry" [("relative", "1")] [
              .mk "mxPoint" [("as", "sourcePoint")] [],
              .mk "mxPoint" [("as", "targetPoint")] []]],
          .mk "mxCell" [("id", "e1l"), ("value", "rico:hasBirthPlace"), ("parent", "e1"), ("style", "edgeLabel")]
            [.mk "mxGeometry" [("relative", "1")] []]
        ]
      ]
    ]
  ]

/-- The configuration of the end-to-end scenario: type inference on,
preamble off, no ontology IRI, no prefix, default indentation, label
annotations on. -/
def endToEndConfig : SerialisationConfig :=
  ⟨true, false, Option.none, Option.none, Option.none, DEFAULT_INDENTATION, true⟩

/-- C1: the claim names upper-camel capitalisation and the space-removal
substitution (the blanket remove mode; spaces joined by the empty string),
with no further metacharacter substitutions needed. -/
def endToEndExpected : String :=
  "Individual: JaneDoe\n  Annotations:\n    rdfs:label \"Jane Doe\"\n" ++
  "  Types: rico:Person\n  Facts:\n    rico:hasBirthPlace Oslo\n\n" ++
  "Individual: Oslo\n  Annotations:\n    rdfs:label \"Oslo\"\n  Types: rico:Place\n\n"

/-- A document fragment for endpoint resolution: an edge `e2` nested two
group levels deep (its parent is group `A`, whose parent is group `B`,
whose parent is the diagram root "1"), with a source point at (1, 2); `A`
sits at (10, 20) inside `B`, and `B` sits at (100, 200) at top level. -/
def nestedGroupsTree : Elem :=
  .mk "root" [] [
    .mk "mxCell" [("id", "B"), ("parent", "1"), ("style", "group")]
      [.mk "mxGeometry" (geomAttrs "100" "200" "600" "600") []],
    .mk "mxCell" [("id", "A"), ("parent", "B"), ("style", "group")]
      [.mk "mxGeometry" (geomAttrs "10" "20" "300" "300") []],
    .mk "mxCell" [("id", "e2"), ("parent", "A"), ("style", "edgeStyle")]
      [.mk "mxGeometry" [("relative", "1")] [
        .mk "mxPoint" [("as", "sourcePoint"), ("x", "1"), ("y", "2")] []]]
  ]

/-- The edge cell of `nestedGroupsTree`. -/
def nestedEdgeCell : Elem :=
  .mk "mxCell" [("id", "e2"), ("parent", "A"), ("style", "edgeStyle")]
    [.mk "mxGeometry" [("relative", "1")] [
      .mk "mxPoint" [("as", "sourcePoint"), ("x", "1"), ("y", "2")] []]]

/-- A minimal parseable document whose container holds a single valueless
cell: it yields no individuals and no arrows, so the serialised output is
exactly the preamble (when enabled). -/
def preambleOnlyDoc : Elem :=
  .mk "mxfile" [] [
    .mk "diagram" [] [
      .mk "mxGraphModel" [] [
        .mk "root" [] [
          .mk "mxCell" [("id", "0")] []
        ]
      ]
    ]
  ]

/-- Preamble enabled, no ontology IRI configured. -/
def timestampConfig : SerialisationConfig :=
  ⟨true, true, Option.none, Option.none, Option.none, DEFAULT_INDENTATION, true⟩

/-! ## C4: block invariants and serialisability -/

/-- Every value list bound in a block's inner mapping is non-empty (value
sets are created as singletons and only ever grown). -/
def FactsWF (tf : Facts) : Prop := ∀ k vs, (k, vs) ∈ tf → vs ≠ []

/-- Every block of the mapping satisfies `FactsWF`. -/
def BlocksWF (blocks : Blocks) : Prop := ∀ k tf, (k, tf) ∈ blocks → FactsWF tf

/-- A configuration with literal-type inference disabled and preamble off. -/
def noInferConfig : SerialisationConfig :=
  ⟨false, false, Option.none, Option.none, Option.none, DEFAULT_INDENTATION, true⟩

/-- The end-to-end document with the edge's explicit target link removed
(the target point is given coordinates so that parsing succeeds), run in
strict mode: the target cannot be determined. -/
def noTargetDoc : Elem :=
  .mk "mxfile" [] [
    .mk "diagram" [] [
      .mk "mxGraphModel" [] [
        .mk "root" [] [
          .mk "mxCell" [("id", "0")] [],
          .mk "mxCell" [("id", "1"), ("parent", "0")] [],
          .mk "mxCell" [("id", "g1"), ("value", "Jane Doe"), ("parent", "1"), ("style", "group")]
            [.mk "mxGeometry" (geomAttrs "40" "40" "160" "80") []],
          .mk "mxCell" [("id", "n1"), ("value", "rico:Person"), ("parent", "g1"), ("style", "text")] [],
          .mk "mxCell" [("id", "e1"), ("value", ""), ("parent", "1"), ("source", "n1"), ("style", "edgeStyle")]
            [.mk "mxGeometry" [("relative", "1")] [
              .mk "mxPoint" [("as", "sourcePoint")] [],
              .mk "mxPoint" [("as", "targetPoint"), ("x", "300"), ("y", "60")] []]],
          .mk "mxCell" [("id", "e1l"), ("value", "rico:hasBirthPlace"), ("parent", "e1"), ("style", "edgeLabel")]
            [.mk "mxGeometry" [("relative", "1")] []]
        ]
      ]
    ]
  ]

/-- The classified cells the proximity search ranges over: all
individual-cells, then all literal-cells, each with its bounding box. -/
def classifiedDims (t : DrawIOXMLTree) : List (Elem × Dimensions) :=
  t.individual_cells.map (fun x => (x.1, x.2.2)) ++ t.literal_cells

/-- A document whose container holds, in this document order: a literal
shape `L` with box (0,0,100,100), a group `G` labelled Jane with box
(50,50,100,100), and a type node `T` declaring `rico:Person` inside `G`. -/
def closeDoc : Elem :=
  .mk "mxfile" [] [
    .mk "diagram" [] [
      .mk "mxGraphModel" [] [
        .mk "root" [] [
          .mk "mxCell" [("id", "0")] [],
          .mk "mxCell" [("id", "1"), ("parent", "0")] [],
          .mk "mxCell" [("id", "L"), ("value", "SomeLiteral"), ("parent", "1"), ("style", "rounded=1;whiteSpace=wrap")]
            [.mk "mxGeometry" (geomAttrs "0" "0" "100" "100") []],
          .mk "mxCell" [("id", "G"), ("value", "Jane"), ("parent", "1"), ("style", "group")]
            [.mk "mxGeometry" (geomAttrs "50" "50" "100" "100") []],
          .mk "mxCell" [("id", "T"), ("value", "rico:Person"), ("parent", "G"), ("style", "text")] []
        ]
      ]
    ]
  ]

/-- The literal cell of `closeDoc`. -/
def cellL : Elem :=
  .mk "mxCell" [("id", "L"), ("value", "SomeLiteral"), ("parent", "1"), ("style", "rounded=1;whiteSpace=wrap")]
    [.mk "mxGeometry" (geomAttrs "0" "0" "100" "100") []]

/-- The type-declaration cell of `closeDoc`. -/
def cellT : Elem :=
  .mk "mxCell" [("id", "T"), ("value", "rico:Person"), ("parent", "G"), ("style", "text")] []

/-- Concrete cells and resolver state for the C3 witness. -/
def cellA : Elem := .mk "mxCell" [("id", "A")] []

/-- A second concrete cell for the C3 witness. -/
def cellB : Elem := .mk "mxCell" [("id", "B")] []

/-- A resolver state with one individual cell at (0,0,10,10) and one
literal cell at (100,100,10,10). -/
def proximityState : DrawIOXMLTree :=
  ⟨closeDoc, [(cellA, ⟨"A", "Person"⟩, (0, 0, 10, 10))], [], [(cellB, (100, 100, 10, 10))]⟩

/-! ## Theorems -/

/-- C1: on the end-to-end scenario input, the pipeline (parse,
individuals_and_arrows in non-strict mode with the default max gap,
individual_blocks with upper-camel capitalisation and space removal,
serialise with preamble off and label annotations on) produces exactly one
individual block for JaneDoe with Types rico:Person and Facts
rico:hasBirthPlace Oslo, followed by one block for Oslo with Types
rico:Place.  The output does not depend on the run timestamp since the
preamble is disabled. -/
theorem C1_end_to_end_scenario :
    pipeline endToEndDoc false DEFAULT_MAX_GAP [] (some "") .upperCamel
      endToEndConfig "2024-04-26T01-31-21" = .ok endToEndExpected := by
  rfl

/-- C2: `_start_or_end` on the doubly-nested edge returns the point plus
only the immediate parent group's raw coordinates, (1+10, 2+20) = (11, 22),
and not the sum over all ancestor groups up to the diagram root,
(1+10+100, 2+20+200) = (111, 222): the recursive call in the source passes
`None` for the `as` attribute, and the `None` branch reads the parent's
geometry directly without recursing further, so resolution stops after one
level instead of terminating at the root. -/
theorem C2_group_recursion_stops_after_one_level :
    _start_or_end nestedGroupsTree nestedEdgeCell (some "sourcePoint") =
      .ok (some (11, 22)) ∧
    ((11 : Int), (22 : Int)) ≠ (1 + 10 + 100, 2 + 20 + 200) := by
  exact ⟨rfl, by decide⟩

/-- C5: `_infer_type` is not total.  On the non-numeric, non-date literal
"abc" (shorter than six characters, not ending in Z) the dispatch indexes
`literal[-6]` and raises `IndexError`; on the empty string it indexes
`literal[-1]` and raises `IndexError`.  The crash propagates through
`_serialise_facts` when inference is enabled; with inference disabled the
same literal is quoted as an untyped string, as the claim describes. -/
theorem C5_infer_type_crashes_on_short_literals :
    _infer_type "abc" = .error .indexError ∧
    _infer_type "" = .error .indexError ∧
    _serialise_facts [("name", ["abc"])] true Option.none = .error .indexError ∧
    _serialise_facts [("name", ["abc"])] false Option.none = .ok ["rico:name \"abc\""] := by
  exact ⟨rfl, rfl, rfl, rfl⟩

set_option maxRecDepth 100000 in
/-- C6 counterexample: with the preamble enabled and no ontology IRI given,
the generated ontology IRI embeds the run timestamp, so two runs of the
full pipeline on the identical input and configuration at different
timestamps produce different bytes. -/
theorem C6_counterexample_timestamped_preamble :
    pipeline preambleOnlyDoc false DEFAULT_MAX_GAP [] Option.none .upperCamel
        timestampConfig "2024-01-01T00-00-00" =
      .ok ("Prefix: rdfs: <http://www.w3.org/2000/01/rdf-schema#>\n" ++
        "Prefix: rico: <https://www.ica.org/standards/RiC/ontology#>\n" ++
        "Prefix: : <ontology://generated-from-draw-io/2024-01-01T00-00-00#>\n" ++
        "Ontology: <ontology://generated-from-draw-io/2024-01-01T00-00-00>\n" ++
        "  Import: <https://www.ica.org/standards/RiC/ontology>\n\n") ∧
    pipeline preambleOnlyDoc false DEFAULT_MAX_GAP [] Option.none .upperCamel
        timestampConfig "2024-01-01T00-00-01" =
      .ok ("Prefix: rdfs: <http://www.w3.org/2000/01/rdf-schema#>\n" ++
        "Prefix: rico: <https://www.ica.org/standards/RiC/ontology#>\n" ++
        "Prefix: : <ontology://generated-from-draw-io/2024-01-01T00-00-01#>\n" ++
        "Ontology: <ontology://generated-from-draw-io/2024-01-01T00-00-01>\n" ++
        "  Import: <https://www.ica.org/standards/RiC/ontology>\n\n") ∧
    pipeline preambleOnlyDoc false DEFAULT_MAX_GAP [] Option.none .upperCamel
        timestampConfig "2024-01-01T00-00-00" ≠
      pipeline preambleOnlyDoc false DEFAULT_MAX_GAP [] Option.none .upperCamel
        timestampConfig "2024-01-01T00-00-01" := by
  exact ⟨rfl, rfl, by decide⟩

/-- The function `_preamble` does not read the timestamp when a non-empty ontology IRI
is configured. -/
theorem _preamble_now_independent (cfg : SerialisationConfig) (i : String)
    (hi : cfg.ontology_iri = some i) (hne : i ≠ "") (now1 now2 : String) :
    _preamble cfg now1 = _preamble cfg now2 := by
  unfold _preamble
  rw [hi]
  simp [hne]

/-- The function `serialise` does not read the timestamp when the preamble is disabled
or a non-empty ontology IRI is configured. -/
theorem serialise_now_independent (blocks : Blocks) (cfg : SerialisationConfig)
    (h : cfg.include_preamble = false ∨ ∃ i, cfg.ontology_iri = some i ∧ i ≠ "")
    (now1 now2 : String) :
    serialise blocks cfg now1 = serialise blocks cfg now2 := by
  unfold serialise
  rcases h with h | ⟨i, hi, hne⟩
  · rw [h]
    rfl
  · by_cases hp : cfg.include_preamble
    · simp only [hp, if_true]
      rw [_preamble_now_independent cfg i hi hne now1 now2]
    · simp only [hp, if_false]
      rfl

/-- C6 amended: the pipeline is a pure function of the input document and
configuration whenever the preamble is disabled or a non-empty ontology IRI
is configured, so re-running it yields byte-identical output; only the
preamble-enabled, no-ontology-IRI combination reads the run timestamp. -/
theorem C6_amended_pipeline_deterministic (root : Elem) (strict_mode : Bool)
    (max_gap : Int) (metacharacter_substitutes : List (Char × String))
    (space_substitute : Option String) (capitalisation_scheme : CapScheme)
    (cfg : SerialisationConfig)
    (h : cfg.include_preamble = false ∨ ∃ i, cfg.ontology_iri = some i ∧ i ≠ "")
    (now1 now2 : String) :
    pipeline root strict_mode max_gap metacharacter_substitutes space_substitute
        capitalisation_scheme cfg now1 =
      pipeline root strict_mode max_gap metacharacter_substitutes space_substitute
        capitalisation_scheme cfg now2 := by
  unfold pipeline
  cases DrawIOXMLTree.build root with
  | error e => rfl
  | ok t =>
    dsimp only
    cases individuals_and_arrows t strict_mode max_gap with
    | error e => rfl
    | ok entries =>
      dsimp only
      cases individual_blocks entries metacharacter_substitutes space_substitute
          capitalisation_scheme with
      | error e => rfl
      | ok blocks => exact serialise_now_independent blocks cfg h now1 now2

/-- C6 amended, witnessed: with the preamble disabled, two runs at
different timestamps coincide on the end-to-end document. -/
theorem C6_amended_pipeline_deterministic_witness :
    pipeline endToEndDoc false DEFAULT_MAX_GAP [] (some "") .upperCamel
        endToEndConfig "2024-01-01T00-00-00" =
      pipeline endToEndDoc false DEFAULT_MAX_GAP [] (some "") .upperCamel
        endToEndConfig "2024-01-01T00-00-01" :=
  C6_amended_pipeline_deterministic endToEndDoc false DEFAULT_MAX_GAP [] (some "")
    .upperCamel endToEndConfig (Or.inl rfl) "2024-01-01T00-00-00" "2024-01-01T00-00-01"

theorem setAdd_ne_nil (x : String) (l : List String) : setAdd x l ≠ [] := by
  unfold setAdd
  split
  · rename_i h
    intro hnil
    subst hnil
    simp at h
  · simp

theorem mem_setA {κ β : Type} [DecidableEq κ] (k0 : κ) (v0 : β) (l : List (κ × β))
    (k : κ) (v : β) (h : (k, v) ∈ setA k0 v0 l) :
    (k, v) ∈ l ∨ (k = k0 ∧ v = v0) := by
  induction l with
  | nil => simp [setA] at h
  | cons p rest ih =>
    obtain ⟨k2, v2⟩ := p
    unfold setA at h
    split at h
    · rename_i heq
      rcases List.mem_cons.mp h with h1 | h1
      · right
        have hk : k = k2 := congrArg Prod.fst h1
        have hv : v = v0 := congrArg Prod.snd h1
        exact ⟨hk.trans heq, hv⟩
      · exact Or.inl (List.mem_cons.mpr (Or.inr h1))
    · rcases List.mem_cons.mp h with h1 | h1
      · exact Or.inl (List.mem_cons.mpr (Or.inl h1))
      · rcases ih h1 with h2 | h2
        · exact Or.inl (List.mem_cons.mpr (Or.inr h2))
        · exact Or.inr h2

theorem getA_mem {κ β : Type} [DecidableEq κ] (k : κ) (l : List (κ × β)) (v : β)
    (h : getA k l = some v) : (k, v) ∈ l := by
  induction l with
  | nil => simp [getA] at h
  | cons p rest ih =>
    obtain ⟨k2, v2⟩ := p
    unfold getA at h
    split at h
    · rename_i heq
      injection h with h
      subst heq
      subst h
      exact List.mem_cons.mpr (Or.inl rfl)
    · exact List.mem_cons.mpr (Or.inr (ih h))

theorem FactsWF_append_singleton (tf : Facts) (name x : String) (h : FactsWF tf) :
    FactsWF (tf ++ [(name, [x])]) := by
  intro k vs hm
  rcases List.mem_append.mp hm with h1 | h1
  · exact h k vs h1
  · simp at h1
    rw [h1.2]
    simp

theorem FactsWF_setAdd (tf : Facts) (name : String) (vs0 : List String) (x : String)
    (h : FactsWF tf) : FactsWF (setA name (setAdd x vs0) tf) := by
  intro k vs hm
  rcases mem_setA name (setAdd x vs0) tf k vs hm with h1 | h1
  · exact h k vs h1
  · rw [h1.2]
    exact setAdd_ne_nil x vs0

theorem BlocksWF_append_new (blocks : Blocks) (key : String × String)
    (name x : String) (h : BlocksWF blocks) :
    BlocksWF (blocks ++ [(key, [(name, [x])])]) := by
  intro k tf hm
  rcases List.mem_append.mp hm with h1 | h1
  · exact h k tf h1
  · simp at h1
    rw [h1.2]
    intro k2 vs hmm
    simp at hmm
    rw [hmm.2]
    simp

theorem BlocksWF_setA (blocks : Blocks) (key : String × String) (tf2 : Facts)
    (h : BlocksWF blocks) (h2 : FactsWF tf2) : BlocksWF (setA key tf2 blocks) := by
  intro k tf hm
  rcases mem_setA key tf2 blocks k tf hm with h1 | h1
  · exact h k tf h1
  · rw [h1.2]
    exact h2

theorem _add_individual_type_wf (blocks : Blocks) (individual : Individual)
    (subs : List (Char × String)) (sp : Option String) (scheme : CapScheme)
    (out : Blocks) (h : _add_individual_type blocks individual subs sp scheme = .ok out)
    (hwf : BlocksWF blocks) : BlocksWF out := by
  unfold _add_individual_type at h
  cases hrm : _replace_metacharacters individual.identifier subs sp scheme with
  | error e => rw [hrm] at h; exact absurd h (by simp)
  | ok iid =>
    rw [hrm] at h
    dsimp only at h
    cases hg : getA (iid, individual.identifier) blocks with
    | none =>
      rw [hg] at h
      injection h with h
      rw [← h]
      exact BlocksWF_append_new blocks _ _ _ hwf
    | some block =>
      rw [hg] at h
      dsimp only at h
      have hblock : FactsWF block := hwf _ block (getA_mem _ blocks block hg)
      cases ht : getA "Types" block with
      | none =>
        rw [ht] at h
        injection h with h
        rw [← h]
        exact BlocksWF_setA blocks _ _ hwf (FactsWF_append_singleton block _ _ hblock)
      | some types =>
        rw [ht] at h
        injection h with h
        rw [← h]
        exact BlocksWF_setA blocks _ _ hwf (FactsWF_setAdd block _ types _ hblock)

theorem _blocks_step_wf (subs : List (Char × String)) (sp : Option String)
    (scheme : CapScheme) (blocks : Blocks) (entry : Entry) (out : Blocks)
    (h : _blocks_step subs sp scheme blocks entry = .ok out)
    (hwf : BlocksWF blocks) : BlocksWF out := by
  cases entry with
  | ind individual => exact _add_individual_type_wf blocks individual subs sp scheme out h hwf
  | arr arrow =>
    unfold _blocks_step at h
    dsimp only at h
    cases htr :
        (if arrow.identifier ∈ _ric_object_properties then
          _replace_metacharacters arrow.target subs sp scheme
        else if arrow.identifier ∈ _ric_datatype_properties then .ok arrow.target
        else .error (.notInRiC arrow.identifier) : Except Err String) with
    | error e => rw [htr] at h; exact absurd h (by simp)
    | ok target_identifier =>
      rw [htr] at h
      cases hsr : _replace_metacharacters arrow.source subs sp scheme with
      | error e => rw [hsr] at h; exact absurd h (by simp)
      | ok source_identifier =>
        rw [hsr] at h
        dsimp only at h
        cases hg : getA (source_identifier, arrow.source) blocks with
        | none =>
          rw [hg] at h
          injection h with h
          rw [← h]
          exact BlocksWF_append_new blocks _ _ _ hwf
        | some block =>
          rw [hg] at h
          dsimp only at h
          have hblock : FactsWF block := hwf _ block (getA_mem _ blocks block hg)
          cases ht : getA arrow.identifier block with
          | none =>
            rw [ht] at h
            injection h with h
            rw [← h]
            exact BlocksWF_setA blocks _ _ hwf (FactsWF_append_singleton block _ _ hblock)
          | some values =>
            rw [ht] at h
            injection h with h
            rw [← h]
            exact BlocksWF_setA blocks _ _ hwf (FactsWF_setAdd block _ values _ hblock)

theorem foldE_blocks_wf (subs : List (Char × String)) (sp : Option String)
    (scheme : CapScheme) :
    ∀ (entries : List Entry) (b : Blocks), BlocksWF b →
      ∀ out, foldE (_blocks_step subs sp scheme) b entries = .ok out → BlocksWF out := by
  intro entries
  induction entries with
  | nil =>
    intro b hb out h
    unfold foldE at h
    injection h with h
    rw [← h]
    exact hb
  | cons e es ih =>
    intro b hb out h
    unfold foldE at h
    cases hstep : _blocks_step subs sp scheme b e with
    | error err => rw [hstep] at h; exact absurd h (by simp)
    | ok b2 =>
      rw [hstep] at h
      exact ih b2 (_blocks_step_wf subs sp scheme b e b2 hstep hb) out h

theorem mem_removeA {κ β : Type} [DecidableEq κ] (key : κ) (l : List (κ × β))
    (k : κ) (v : β) (h : (k, v) ∈ removeA key l) : (k, v) ∈ l := by
  induction l with
  | nil => simp [removeA] at h
  | cons p rest ih =>
    obtain ⟨k2, v2⟩ := p
    unfold removeA at h
    split at h
    · exact List.mem_cons.mpr (Or.inr h)
    · rcases List.mem_cons.mp h with h1 | h1
      · exact List.mem_cons.mpr (Or.inl h1)
      · exact List.mem_cons.mpr (Or.inr (ih h1))

theorem insertSorted_ne_nil (x : String) (l : List String) : insertSorted x l ≠ [] := by
  unfold insertSorted
  cases l with
  | nil => simp
  | cons y ys => dsimp only; split <;> simp

theorem sortedStrings_ne_nil (l : List String) (h : l ≠ []) : sortedStrings l ≠ [] := by
  cases l with
  | nil => exact absurd rfl h
  | cons x xs => exact insertSorted_ne_nil x (sortedStrings xs)

theorem _serialise_one_fact_no_infer_ok (prefix_string _property value : String) :
    ∃ r, _serialise_one_fact prefix_string false _property value = .ok r := by
  unfold _serialise_one_fact
  by_cases hm : _property ∈ _ric_datatype_properties <;> simp [hm]

theorem mapE_ok_of_all {α β : Type} (f : α → Except Err β) :
    ∀ l : List α, (∀ x ∈ l, ∃ y, f x = .ok y) →
      ∃ ys, mapE f l = .ok ys ∧ ys.length = l.length := by
  intro l
  induction l with
  | nil => intro _; exact ⟨[], rfl, rfl⟩
  | cons x xs ih =>
    intro h
    obtain ⟨y, hy⟩ := h x (List.mem_cons.mpr (Or.inl rfl))
    obtain ⟨ys, hys, hlen⟩ := ih (fun z hz => h z (List.mem_cons.mpr (Or.inr hz)))
    refine ⟨y :: ys, ?_, by simp [hlen]⟩
    unfold mapE
    rw [hy, hys]

theorem _serialise_facts_step_no_infer_ok (prefix_string : String) (acc : List String)
    (pv : String × List String) :
    ∃ lines, _serialise_facts_step prefix_string false acc pv = .ok (acc ++ lines) ∧
      (pv.2 ≠ [] → lines ≠ []) := by
  obtain ⟨p, vs⟩ := pv
  obtain ⟨ys, hys, hlen⟩ := mapE_ok_of_all
    (_serialise_one_fact prefix_string false p) (sortedStrings vs)
    (fun v _ => _serialise_one_fact_no_infer_ok prefix_string p v)
  refine ⟨ys, ?_, ?_⟩
  · unfold _serialise_facts_step
    dsimp only
    rw [hys]
  · intro hvs hnil
    apply sortedStrings_ne_nil vs hvs
    rw [← List.length_eq_zero] at hnil ⊢
    rw [← hlen]
    exact hnil

theorem foldE_facts_no_infer (prefix_string : String) :
    ∀ (facts : Facts) (acc : List String), FactsWF facts →
      ∃ out, foldE (_serialise_facts_step prefix_string false) acc facts = .ok out ∧
        ∃ ext, out = acc ++ ext ∧ (facts ≠ [] → out ≠ []) := by
  intro facts
  induction facts with
  | nil =>
    intro acc _
    exact ⟨acc, rfl, [], by simp⟩
  | cons pv rest ih =>
    intro acc hwf
    obtain ⟨lines, hstep, hne⟩ := _serialise_facts_step_no_infer_ok prefix_string acc pv
    have hwfrest : FactsWF rest := fun k vs hm => hwf k vs (List.mem_cons.mpr (Or.inr hm))
    obtain ⟨out, hout, ext, hext, _⟩ := ih (acc ++ lines) hwfrest
    refine ⟨out, ?_, lines ++ ext, by rw [hext, List.append_assoc], ?_⟩
    · unfold foldE
      rw [hstep]
      exact hout
    · intro _
      obtain ⟨p, vs⟩ := pv
      have hvs : vs ≠ [] := hwf p vs (List.mem_cons.mpr (Or.inl rfl))
      have hlines : lines ≠ [] := hne hvs
      rw [hext]
      intro habs
      rcases List.append_eq_nil.mp habs with ⟨h1, _⟩
      rcases List.append_eq_nil.mp h1 with ⟨_, h2⟩
      exact hlines h2

theorem _serialise_block_ok_of_types (individual_id individual_label : String)
    (tf : Facts) (cfg : SerialisationConfig) (ts : List String)
    (hinfer : cfg.infer_type_of_literals = false)
    (hts : getA "Types" tf = some ts) (hwf : FactsWF tf) :
    ∃ s, _serialise_block individual_id individual_label tf cfg = .ok s := by
  unfold _serialise_block
  rw [hts]
  dsimp only
  by_cases hfe : (removeA "Types" tf).isEmpty
  · simp only [hfe, if_true]
    exact ⟨_, rfl⟩
  · simp only [hfe, if_false]
    have hwfr : FactsWF (removeA "Types" tf) :=
      fun k vs hm => hwf k vs (mem_removeA "Types" tf k vs hm)
    have hne : removeA "Types" tf ≠ [] := by
      intro habs
      rw [habs] at hfe
      exact hfe rfl
    obtain ⟨lines, hlines, ext, hext, hnn⟩ :=
      foldE_facts_no_infer (pfxString cfg.pfx) (removeA "Types" tf) [] hwfr
    unfold _serialise_facts
    rw [hinfer, hlines]
    dsimp only
    have hlne : lines ≠ [] := hnn hne
    cases hlast : lines.getLast? with
    | none => exact absurd (List.getLast?_eq_none_iff.mp hlast) hlne
    | some lastFact => exact ⟨_, rfl⟩

theorem serialise_ok_of_types (cfg : SerialisationConfig)
    (hinfer : cfg.infer_type_of_literals = false) :
    ∀ (blocks : Blocks) (init : String), BlocksWF blocks →
      (∀ k tf, (k, tf) ∈ blocks → ∃ ts, getA "Types" tf = some ts) →
      ∃ s, foldE (_serialise_blocks_step cfg) init blocks = .ok s := by
  intro blocks
  induction blocks with
  | nil => intro init _ _; exact ⟨init, rfl⟩
  | cons kv rest ih =>
    intro init hwf htypes
    obtain ⟨key, tf⟩ := kv
    obtain ⟨id1, label1⟩ := key
    obtain ⟨ts, hts⟩ := htypes (id1, label1) tf (List.mem_cons.mpr (Or.inl rfl))
    obtain ⟨s1, hs1⟩ := _serialise_block_ok_of_types id1 label1 tf cfg ts hinfer hts
      (hwf (id1, label1) tf (List.mem_cons.mpr (Or.inl rfl)))
    obtain ⟨s, hs⟩ := ih (init ++ s1)
      (fun k tf2 hm => hwf k tf2 (List.mem_cons.mpr (Or.inr hm)))
      (fun k tf2 hm => htypes k tf2 (List.mem_cons.mpr (Or.inr hm)))
    refine ⟨s, ?_⟩
    unfold foldE
    unfold _serialise_blocks_step
    dsimp only
    rw [hs1]
    exact hs

/-- C4 amended: (i) in every mapping `individual_blocks` produces, every
`"Types"` entry of every block is a non-empty set — in particular the
`"Types"` set is non-empty for every block that originated from at least
one Individual; (ii) `serialise` (with literal-type inference disabled) is
defined on every mapping in which each block carries a `"Types"` entry and
all value sets are non-empty, which covers every block that originated from
an Individual.  It is not defined on every mapping `individual_blocks` can
produce: a block created purely from being a relation source has no
`"Types"` entry and makes `serialise` raise `KeyError` (see the
counterexample). -/
theorem C4_amended_types_invariant_and_serialisability :
    (∀ (entries : List Entry) (subs : List (Char × String)) (sp : Option String)
        (scheme : CapScheme) (out : Blocks),
      individual_blocks entries subs sp scheme = .ok out →
        ∀ k tf, (k, tf) ∈ out → ∀ ts, ("Types", ts) ∈ tf → ts ≠ []) ∧
    (∀ (blocks : Blocks) (cfg : SerialisationConfig) (now : String),
      cfg.infer_type_of_literals = false → BlocksWF blocks →
        (∀ k tf, (k, tf) ∈ blocks → ∃ ts, getA "Types" tf = some ts) →
        ∃ s, serialise blocks cfg now = .ok s) := by
  constructor
  · intro entries subs sp scheme out h k tf hm ts hts
    have hwf : BlocksWF out :=
      foldE_blocks_wf subs sp scheme entries []
        (by intro k2 tf2 h2; simp at h2) out h
    exact hwf k tf hm "Types" ts hts
  · intro blocks cfg now hinf hwf htys
    obtain ⟨s, hs⟩ := serialise_ok_of_types cfg hinf blocks _ hwf htys
    refine ⟨s, ?_⟩
    unfold serialise
    exact hs

/-- C4 amended, witnessed on concrete inputs: the mapping produced from one
Individual has its non-empty Types entry, and serialising it succeeds. -/
theorem C4_amended_types_invariant_and_serialisability_witness :
    (∀ k tf, (k, tf) ∈ ([(("X2", "X2"), [("Types", ["Person"])])] : Blocks) →
      ∀ ts, ("Types", ts) ∈ tf → ts ≠ []) ∧
    (∃ s, serialise [(("X2", "X2"), [("Types", ["Person"])])] noInferConfig
      "2024-01-01T00-00-00" = .ok s) := by
  constructor
  · intro k tf hm ts hts
    exact C4_amended_types_invariant_and_serialisability.1
      [.ind ⟨"X2", "Person"⟩] [] Option.none .upperCamel
      [(("X2", "X2"), [("Types", ["Person"])])] rfl k tf hm ts hts
  · exact C4_amended_types_invariant_and_serialisability.2
      [(("X2", "X2"), [("Types", ["Person"])])] noInferConfig "2024-01-01T00-00-00" rfl
      (by
        intro k tf hm
        simp at hm
        rw [hm.2]
        intro k2 vs hm2
        simp at hm2
        rw [hm2.2]
        simp)
      (by
        intro k tf hm
        simp at hm
        rw [hm.2]
        exact ⟨["Person"], rfl⟩)

/-- C4 counterexample: an Arrow whose source matches no Individual yields a
block with no `"Types"` entry, and `serialise` fails on the resulting
mapping with a `KeyError` — so `serialise` is not defined on every mapping
`individual_blocks` can produce. -/
theorem C4_counterexample_arrow_only_block_unserialisable :
    individual_blocks [.arr ⟨"hasBirthPlace", "X", "Y"⟩] [] Option.none .upperCamel =
      .ok [(("X", "X"), [("hasBirthPlace", ["Y"])])] ∧
    getA "Types" [("hasBirthPlace", ["Y"])] = Option.none ∧
    serialise [(("X", "X"), [("hasBirthPlace", ["Y"])])] endToEndConfig
      "2024-01-01T00-00-00" = .error (.keyError "Types") := by
  exact ⟨rfl, rfl, rfl⟩

/-- C7: for every metacharacter in the fixed OWL set, sanitising an
identifier containing it either applies the first configured substitution
for it, or fails with the `MetacharacterException` naming exactly that
character and that identifier — never passing it through silently; and on
an identifier not containing it, the substitution pass for that character
returns the identifier untouched and cannot fail. -/
theorem C7_sanitizer_totality (m : Char) (identifier : String)
    (subs : List (Char × String)) (_hm : m ∈ OWL_METACHARACTERS) :
    (pyContainsChar identifier m = false →
      _replace_metacharacter m identifier subs = .ok identifier) ∧
    (pyContainsChar identifier m = true →
      (∃ r, findSubstitute m subs = some r ∧
        _replace_metacharacter m identifier subs = .ok (replaceChar identifier m r)) ∨
      (findSubstitute m subs = Option.none ∧
        _replace_metacharacter m identifier subs =
          .error (.metacharacterError m identifier))) := by
  constructor
  · intro h
    unfold _replace_metacharacter
    simp [h]
  · intro h
    unfold _replace_metacharacter
    simp only [h, Bool.not_true, Bool.false_eq_true, not_true_eq_false, if_false]
    cases hf : findSubstitute m subs with
    | none => exact Or.inr ⟨rfl, by simp⟩
    | some r => exact Or.inl ⟨r, rfl, by simp⟩

/-- C7 witnessed at concrete inputs: no failure without the metacharacter;
error naming the character and label when it is present unconfigured;
substitution applied when configured. -/
theorem C7_sanitizer_totality_witness :
    _replace_metacharacter '(' "ab" [] = .ok "ab" ∧
    _replace_metacharacter '(' "a(b" [] = .error (.metacharacterError '(' "a(b") ∧
    _replace_metacharacter '(' "a(b" [('(', "-")] = .ok (replaceChar "a(b" '(' "-") := by
  refine ⟨(C7_sanitizer_totality '(' "ab" [] (by decide)).1 (by decide), ?_, ?_⟩
  · rcases (C7_sanitizer_totality '(' "a(b" [] (by decide)).2 (by decide) with
      ⟨r, hr, _⟩ | ⟨_, he⟩
    · simp [findSubstitute] at hr
    · exact he
  · rcases (C7_sanitizer_totality '(' "a(b" [('(', "-")] (by decide)).2 (by decide) with
      ⟨r, hr, hres⟩ | ⟨hn, _⟩
    · simp [findSubstitute] at hr
      subst hr
      exact hres
    · simp [findSubstitute] at hn

theorem foldE_cons {α β : Type} (f : β → α → Except Err β) (b : β) (x : α)
    (xs : List α) :
    foldE f b (x :: xs) =
      match f b x with
      | .error e => .error e
      | .ok b2 => foldE f b2 xs := rfl

theorem foldE_append {α β : Type} (f : β → α → Except Err β) :
    ∀ (l1 l2 : List α) (b : β),
      foldE f b (l1 ++ l2) =
        match foldE f b l1 with
        | .error e => .error e
        | .ok b2 => foldE f b2 l2 := by
  intro l1
  induction l1 with
  | nil => intro l2 b; rfl
  | cons x xs ih =>
    intro l2 b
    rw [List.cons_append, foldE_cons, foldE_cons]
    cases f b x with
    | error e => rfl
    | ok b2 => exact ih l2 b2

theorem _blocks_step_not_in_ric (subs : List (Char × String)) (sp : Option String)
    (scheme : CapScheme) (blocks : Blocks) (a : Arrow)
    (h1 : a.identifier ∉ _ric_object_properties)
    (h2 : a.identifier ∉ _ric_datatype_properties) :
    _blocks_step subs sp scheme blocks (.arr a) = .error (.notInRiC a.identifier) := by
  unfold _blocks_step
  simp [h1, h2]

/-- C8: an Arrow whose relation name is in neither the object-property nor
the datatype-property vocabulary makes `individual_blocks` fail — it never
returns a mapping for a stream containing such an arrow, so the arrow is
never added to any block; and when the entries before the arrow process
cleanly, the failure is exactly the `NotInRiCException` naming the
relation. -/
theorem C8_vocabulary_enforcement (pre post : List Entry) (a : Arrow)
    (subs : List (Char × String)) (sp : Option String) (scheme : CapScheme)
    (h1 : a.identifier ∉ _ric_object_properties)
    (h2 : a.identifier ∉ _ric_datatype_properties) :
    (∀ blocks, individual_blocks (pre ++ .arr a :: post) subs sp scheme ≠ .ok blocks) ∧
    (∀ blocks0, individual_blocks pre subs sp scheme = .ok blocks0 →
      individual_blocks (pre ++ .arr a :: post) subs sp scheme =
        .error (.notInRiC a.identifier)) := by
  have key : ∀ blocks0 : Blocks,
      foldE (_blocks_step subs sp scheme) blocks0 (Entry.arr a :: post) =
        .error (.notInRiC a.identifier) := by
    intro blocks0
    unfold foldE
    rw [_blocks_step_not_in_ric subs sp scheme blocks0 a h1 h2]
  constructor
  · intro blocks
    unfold individual_blocks
    rw [foldE_append]
    cases foldE (_blocks_step subs sp scheme) [] pre with
    | error e => simp
    | ok blocks0 =>
      dsimp only
      rw [key blocks0]
      simp
  · intro blocks0 hpre
    unfold individual_blocks
    rw [foldE_append]
    unfold individual_blocks at hpre
    rw [hpre]
    exact key blocks0

/-- C8 witnessed: a stream holding one arrow with an unknown relation name
fails with the `NotInRiCException` naming it. -/
theorem C8_vocabulary_enforcement_witness :
    individual_blocks [.arr ⟨"notARealRelation", "S", "T"⟩] [] Option.none .upperCamel =
      .error (.notInRiC "notARealRelation") :=
  (C8_vocabulary_enforcement [] [] ⟨"notARealRelation", "S", "T"⟩ [] Option.none
    .upperCamel (by decide) (by decide)).2 [] rfl

theorem _prettify_go_nil_eq (p h : Bool) (c : String) :
    _prettify_linebreaks_go [] p h c = if c ≠ "" then [c] else [] := rfl

theorem _prettify_go_cons_eq (chunk : String) (rest : List String) (p h : Bool)
    (c : String) :
    _prettify_linebreaks_go (chunk :: rest) p h c =
      if chunk = "" then
        (if c ≠ "" then [c] else []) ++
        (if p && !h then "\n\n" :: _prettify_linebreaks_go rest p true ""
         else _prettify_linebreaks_go rest true h "")
      else _prettify_linebreaks_go rest false false (c ++ chunk) := rfl

theorem _prettify_go_cons_nonempty (b : String) (hb : b ≠ "") (rest : List String)
    (p h : Bool) (c : String) :
    _prettify_linebreaks_go (b :: rest) p h c =
      _prettify_linebreaks_go rest false false (c ++ b) := by
  rw [_prettify_go_cons_eq]
  simp [hb]

theorem _prettify_go_skip_handled : ∀ (k : Nat) (rest : List String),
    _prettify_linebreaks_go (List.replicate k "" ++ rest) true true "" =
      _prettify_linebreaks_go rest true true "" := by
  intro k
  induction k with
  | zero => intro rest; rfl
  | succ k ih =>
    intro rest
    rw [List.replicate_succ, List.cons_append, _prettify_go_cons_eq]
    simp only [if_pos rfl, ne_eq, not_true_eq_false, if_false, Bool.not_true,
      Bool.and_false, Bool.false_eq_true, List.nil_append]
    exact ih rest

theorem _prettify_go_paragraph_run : ∀ (k : Nat) (rest : List String) (c : String),
    c ≠ "" →
    _prettify_linebreaks_go (List.replicate (k + 2) "" ++ rest) false false c =
      c :: "\n\n" :: _prettify_linebreaks_go rest true true "" := by
  intro k rest c hc
  rw [show k + 2 = (k + 1) + 1 from rfl, List.replicate_succ, List.cons_append,
    _prettify_go_cons_eq]
  simp only [if_pos rfl, ne_eq, hc, not_false_eq_true, if_true, Bool.false_and,
    Bool.false_eq_true, if_false]
  rw [List.replicate_succ, List.cons_append "" (List.replicate k "") rest,
    _prettify_go_cons_eq "" (List.replicate k "" ++ rest) true false ""]
  simp only [if_pos rfl, ne_eq, not_true_eq_false, if_false, Bool.not_false,
    Bool.and_true, if_true, List.nil_append]
  rw [_prettify_go_skip_handled k rest]
  rfl

/-- C9: in the chunk-to-paragraph reconstruction, a run of `k ≥ 2`
consecutive empty chunks between non-empty chunks yields exactly one
paragraph marker `"\n\n"`; a single empty chunk between non-empty chunks
contributes nothing; and the final content is the joined chunk sequence
trimmed of leading and trailing whitespace. -/
theorem C9_paragraph_break_collapse (a b : String) (k : Nat) (rest : List String)
    (ha : a ≠ "") (hb : b ≠ "") (hk : 2 ≤ k) :
    _prettify_linebreaks (a :: (List.replicate k "" ++ (b :: rest))) =
      a :: "\n\n" :: _prettify_linebreaks (b :: rest) ∧
    _prettify_linebreaks (a :: "" :: b :: rest) = a :: _prettify_linebreaks (b :: rest) ∧
    content ⟨a :: (List.replicate k "" ++ [b]), ""⟩ = pyStrip (joinAll [a, "\n\n", b]) := by
  obtain ⟨k0, hk0⟩ : ∃ k0, k = k0 + 2 := ⟨k - 2, by omega⟩
  subst hk0
  have main : ∀ rest2 : List String,
      _prettify_linebreaks (a :: (List.replicate (k0 + 2) "" ++ (b :: rest2))) =
        a :: "\n\n" :: _prettify_linebreaks (b :: rest2) := by
    intro rest2
    unfold _prettify_linebreaks
    rw [_prettify_go_cons_nonempty a ha _ false false ""]
    rw [show ("" : String) ++ a = a from rfl]
    rw [_prettify_go_paragraph_run k0 (b :: rest2) a ha]
    rw [_prettify_go_cons_nonempty b hb rest2 true true ""]
    rw [_prettify_go_cons_nonempty b hb rest2 false false ""]
  refine ⟨main rest, ?_, ?_⟩
  · unfold _prettify_linebreaks
    rw [_prettify_go_cons_nonempty a ha _ false false ""]
    rw [show ("" : String) ++ a = a from rfl]
    rw [_prettify_go_cons_eq]
    simp only [if_pos rfl, ne_eq, ha, not_false_eq_true, if_true, Bool.false_and,
      Bool.false_eq_true, if_false]
    rw [_prettify_go_cons_nonempty b hb rest true false ""]
    rw [_prettify_go_cons_nonempty b hb rest false false ""]
    rfl
  · have hb1 : _prettify_linebreaks [b] = [b] := by
      unfold _prettify_linebreaks
      rw [_prettify_go_cons_nonempty b hb [] false false ""]
      rw [show ("" : String) ++ b = b from rfl]
      unfold _prettify_linebreaks_go
      simp [hb]
    unfold content
    simp only [ne_eq, not_true_eq_false, if_false]
    rw [main [], hb1]

/-- C9 witnessed at concrete chunk lists. -/
theorem C9_paragraph_break_collapse_witness :
    _prettify_linebreaks ["a", "", "", "b"] = ["a", "\n\n", "b"] ∧
    _prettify_linebreaks ["a", "", "b"] = ["a", "b"] ∧
    content ⟨["a", "", "", "b"], ""⟩ = pyStrip (joinAll ["a", "\n\n", "b"]) := by
  have h := C9_paragraph_break_collapse "a" "b" 2 [] (by decide) (by decide) (by decide)
  exact ⟨h.1, h.2.1, h.2.2⟩

/-! ## C10: the exception raised for an undeterminable target -/

theorem _cell_with_id_error (tree : Elem) (i : String) (e : Err)
    (h : _cell_with_id tree i = .error e) : e = .valueError := by
  unfold _cell_with_id at h
  split at h
  · exact absurd h (by simp)
  · injection h with h
    exact h.symm

theorem _value_of_error (cell : Elem) (e : Err) (h : _value_of cell = .error e) :
    e = .noValue := by
  unfold _value_of at h
  split at h
  · injection h with h
    exact h.symm
  · exact absurd h (by simp)

theorem _parent_of_error (tree cell : Elem) (e : Err)
    (h : _parent_of tree cell = .error e) : e = .valueError ∨ ∃ m, e = .parse m := by
  unfold _parent_of at h
  split at h
  · injection h with h
    exact Or.inr ⟨_, h.symm⟩
  · exact Or.inl (_cell_with_id_error tree _ e h)

theorem _source_or_target_error (t : DrawIOXMLTree) (cell : Elem)
    (must_be_individual : Bool) (e : Err)
    (h : _source_or_target t cell must_be_individual = .error e)
    (label cid : String) : e ≠ .noTarget label cid := by
  unfold _source_or_target at h
  split at h
  · rename_i e2 he2
    injection h with h
    rw [← h, _value_of_error cell e2 he2]
    simp
  · rename_i value hvalue
    split at h
    · split at h
      · rename_i e2 he2
        injection h with h
        rw [← h]
        rcases _parent_of_error t.tree cell e2 he2 with h2 | ⟨m, h2⟩ <;> rw [h2] <;> simp
      · rename_i parent hparent
        rw [_value_of_error parent e h]
        simp
    · split at h
      · injection h with h
        rw [← h]
        simp
      · exact absurd h (by simp)

theorem _cell_close_to_error (t : DrawIOXMLTree) (p : Int × Int) (max_gap : Int)
    (e : Err) (h : _cell_close_to t p max_gap = .error e) : e = .noCellCloseEnough := by
  unfold _cell_close_to at h
  split at h
  · exact absurd h (by simp)
  · split at h
    · exact absurd h (by simp)
    · injection h with h
      exact h.symm

theorem _linked_or_close_cell_error (t : DrawIOXMLTree) (arrow_cell : Elem)
    (link_attribute : String) (point : Option (Int × Int)) (arrow_label : String)
    (strict_mode : Bool) (max_gap : Int) (e : Err)
    (h : _linked_or_close_cell t arrow_cell link_attribute point arrow_label
      strict_mode max_gap = .error e) (label cid : String) :
    e ≠ .noTarget label cid := by
  unfold _linked_or_close_cell at h
  split at h
  · rw [_cell_with_id_error t.tree _ e h]
    simp
  · split at h
    · injection h with h
      rw [← h]
      simp
    · split at h
      · injection h with h
        rw [← h]
        simp
      · split at h
        · exact absurd h (by simp)
        · injection h with h
          rw [← h]
          simp

theorem _arrow_error_not_no_target (t : DrawIOXMLTree) (arrow_data : ArrowData)
    (strict_mode : Bool) (max_gap : Int) (e : Err)
    (h : _arrow t arrow_data strict_mode max_gap = .error e) (label cid : String) :
    e ≠ .noTarget label cid := by
  obtain ⟨arrow_cell, arrow_start, arrow_end, arrow_label⟩ := arrow_data
  unfold _arrow at h
  dsimp only at h
  split at h
  · injection h with h
    rw [← h]
    exact _linked_or_close_cell_error t arrow_cell "source" arrow_start arrow_label
      strict_mode max_gap _ (by assumption) label cid
  · split at h
    · injection h with h
      rw [← h]
      simp
    · injection h with h
      rw [← h]
      exact _source_or_target_error t _ true _ (by assumption) label cid
    · split at h
      · injection h with h
        rw [← h]
        exact _linked_or_close_cell_error t arrow_cell "target" arrow_end arrow_label
          strict_mode max_gap _ (by assumption) label cid
      · split at h
        · injection h with h
          rw [← h]
          exact _source_or_target_error t _ false _ (by assumption) label cid
        · split at h
          · exact absurd h (by simp)
          · injection h with h
            rw [← h]
            simp

theorem mapE_error_exists {α β : Type} (f : α → Except Err β) :
    ∀ (l : List α) (e : Err), mapE f l = .error e → ∃ x ∈ l, f x = .error e := by
  intro l
  induction l with
  | nil => intro e h; exact absurd h (by simp [mapE])
  | cons x xs ih =>
    intro e h
    unfold mapE at h
    split at h
    · rename_i e2 he2
      injection h with h
      exact ⟨x, List.mem_cons.mpr (Or.inl rfl), by rw [he2, h]⟩
    · split at h
      · rename_i e2 he2
        injection h with h
        obtain ⟨y, hy, hfy⟩ := ih e2 he2
        exact ⟨y, List.mem_cons.mpr (Or.inr hy), by rw [hfy, h]⟩
      · exact absurd h (by simp)

/-- C10: whatever the tree, the arrow, the mode and the gap,
`individuals_and_arrows` never raises `NoTargetException` — the class is
declared but unused; and on a concrete edge whose target cannot be
determined (no explicit target link, strict mode) the exception raised is
`NoSourceException`, with the message naming the arrow label and cell id. -/
theorem C10_no_target_exception_never_raised :
    (∀ (t : DrawIOXMLTree) (strict_mode : Bool) (max_gap : Int) (label cid : String),
      individuals_and_arrows t strict_mode max_gap ≠ .error (.noTarget label cid)) ∧
    (DrawIOXMLTree.build noTargetDoc >>= fun t =>
      individuals_and_arrows t true DEFAULT_MAX_GAP) =
        .error (.noSource "rico:hasBirthPlace" "e1") := by
  constructor
  · intro t strict_mode max_gap label cid h
    unfold individuals_and_arrows at h
    split at h
    · rename_i e2 he2
      injection h with h
      obtain ⟨ad, _, had⟩ := mapE_error_exists
        (fun arrow_data => _arrow t arrow_data strict_mode max_gap) t.arrow_cells e2 he2
      exact _arrow_error_not_no_target t ad strict_mode max_gap e2 had label cid h
    · exact absurd h (by simp)
  · rfl

/-- C10 witnessed at a concrete state. -/
theorem C10_no_target_exception_never_raised_witness :
    individuals_and_arrows ⟨noTargetDoc, [], [], []⟩ true DEFAULT_MAX_GAP ≠
      .error (.noTarget "rico:hasBirthPlace" "e1") :=
  C10_no_target_exception_never_raised.1 ⟨noTargetDoc, [], [], []⟩ true DEFAULT_MAX_GAP
    "rico:hasBirthPlace" "e1"

/-! ## C3: proximity fallback resolution -/

theorem find?_eq_none_of_all {α : Type} (p : α → Bool) :
    ∀ l : List α, (∀ x ∈ l, p x = false) → List.find? p l = Option.none := by
  intro l
  induction l with
  | nil => intro _; rfl
  | cons x xs ih =>
    intro h
    rw [List.find?_cons_of_neg _ (by rw [h x (List.mem_cons.mpr (Or.inl rfl))]; simp)]
    exact ih (fun y hy => h y (List.mem_cons.mpr (Or.inr hy)))

theorem find?_some_of_mem {α : Type} (p : α → Bool) :
    ∀ (l : List α) (x : α), x ∈ l → p x = true →
      ∃ y, List.find? p l = some y ∧ p y = true ∧ y ∈ l := by
  intro l
  induction l with
  | nil => intro x hx; exact absurd hx (by simp)
  | cons a as ih =>
    intro x hx hpx
    by_cases hpa : p a
    · exact ⟨a, List.find?_cons_of_pos _ hpa, hpa, List.mem_cons.mpr (Or.inl rfl)⟩
    · have hxas : x ∈ as := by
        rcases List.mem_cons.mp hx with h1 | h1
        · rw [h1] at hpx; exact absurd hpx hpa
        · exact h1
      obtain ⟨y, hy, hpy, hmy⟩ := ih x hxas hpx
      refine ⟨y, ?_, hpy, List.mem_cons.mpr (Or.inr hmy)⟩
      rw [List.find?_cons_of_neg _ hpa]
      exact hy

theorem find?_first {α : Type} (p : α → Bool) :
    ∀ (pre : List α) (x : α) (post : List α), (∀ y ∈ pre, p y = false) → p x = true →
      List.find? p (pre ++ x :: post) = some x := by
  intro pre
  induction pre with
  | nil =>
    intro x post _ hpx
    exact List.find?_cons_of_pos _ hpx
  | cons a as ih =>
    intro x post h hpx
    rw [List.cons_append,
      List.find?_cons_of_neg _ (by rw [h a (List.mem_cons.mpr (Or.inl rfl))]; simp)]
    exact ih x post (fun y hy => h y (List.mem_cons.mpr (Or.inr hy))) hpx

theorem _cell_close_to_none_of_far (t : DrawIOXMLTree) (p : Int × Int) (g : Int)
    (h : ∀ cd ∈ classifiedDims t, _close_enough p cd.2 g = false) :
    _cell_close_to t p g = .error .noCellCloseEnough := by
  unfold _cell_close_to
  rw [find?_eq_none_of_all _ t.individual_cells
    (fun x hx => h (x.1, x.2.2)
      (List.mem_append.mpr (Or.inl (List.mem_map.mpr ⟨x, hx, rfl⟩))))]
  rw [find?_eq_none_of_all _ t.literal_cells
    (fun x hx => h x (List.mem_append.mpr (Or.inr hx)))]

/-- C3 amended: with only a recovered start point, in non-strict mode,
(i) a point outside every expanded bounding box makes resolution fail;
(ii) a point inside the expanded box of exactly one classified cell
resolves to that cell; (iii) among multiple matches the first matching
individual-cell wins — literal-cells are consulted only when no
individual-cell matches, so document order is respected only within each
class, not across the two classes; (iv) at the arrow level, the
no-match case surfaces as a `NoSourceException` naming the arrow label
and cell id. -/
theorem C3_amended_proximity_resolution (t : DrawIOXMLTree) (p : Int × Int) (g : Int) :
    ((∀ cd ∈ classifiedDims t, _close_enough p cd.2 g = false) →
      _cell_close_to t p g = .error .noCellCloseEnough) ∧
    (∀ cd, cd ∈ classifiedDims t → _close_enough p cd.2 g = true →
      (∀ cd2 ∈ classifiedDims t, _close_enough p cd2.2 g = true → cd2 = cd) →
      _cell_close_to t p g = .ok cd.1) ∧
    (∀ pre x post, t.individual_cells = pre ++ x :: post →
      _close_enough p x.2.2 g = true →
      (∀ y ∈ pre, _close_enough p y.2.2 g = false) →
      _cell_close_to t p g = .ok x.1) ∧
    (∀ (arrow_cell : Elem) (arrow_end : Option (Int × Int)) (arrow_label : String),
      arrow_cell.attr "source" = Option.none →
      (∀ cd ∈ classifiedDims t, _close_enough p cd.2 g = false) →
      _arrow t (arrow_cell, some p, arrow_end, arrow_label) false g =
        .error (.noSource arrow_label arrow_cell.idAttr)) := by
  refine ⟨_cell_close_to_none_of_far t p g, ?_, ?_, ?_⟩
  · intro cd hcd hclose huniq
    unfold _cell_close_to
    cases hfi : List.find? (fun x => _close_enough p x.2.2 g) t.individual_cells with
    | some y =>
      have hy := List.find?_some hfi
      have hmy : y ∈ t.individual_cells := List.mem_of_find?_eq_some hfi
      have heq : (y.1, y.2.2) = cd :=
        huniq (y.1, y.2.2)
          (List.mem_append.mpr (Or.inl (List.mem_map.mpr ⟨y, hmy, rfl⟩))) hy
      dsimp only
      rw [congrArg Prod.fst heq]
    | none =>
      dsimp only
      have hcdlit : cd ∈ t.literal_cells := by
        rcases List.mem_append.mp hcd with h1 | h1
        · obtain ⟨x, hx, hxe⟩ := List.mem_map.mp h1
          have hfalse : ¬ _close_enough p x.2.2 g = true :=
            List.find?_eq_none.mp hfi x hx
          rw [← hxe] at hclose
          exact absurd hclose hfalse
        · exact h1
      obtain ⟨z, hz, hpz, hmz⟩ :=
        find?_some_of_mem (fun x => _close_enough p x.2 g) t.literal_cells cd hcdlit hclose
      rw [hz]
      dsimp only
      have heq : z = cd :=
        huniq z (List.mem_append.mpr (Or.inr hmz)) hpz
      rw [congrArg Prod.fst heq]
  · intro pre x post hsplit hx hpre
    unfold _cell_close_to
    rw [hsplit, find?_first _ pre x post hpre hx]
  · intro arrow_cell arrow_end arrow_label hattr hnone
    have hl : _linked_or_close_cell t arrow_cell "source" (some p) arrow_label false g =
        .error (.noSource arrow_label arrow_cell.idAttr) := by
      unfold _linked_or_close_cell
      rw [hattr]
      dsimp only
      rw [_cell_close_to_none_of_far t p g hnone]
      rfl
    unfold _arrow
    dsimp only
    rw [hl]

/-- C3 counterexample: the point (60, 60) lies (with the default gap)
inside both the literal cell `L`'s box and the individual bounding box of
`T`; `L` precedes `T` in original document order (third conjunct), yet the
resolver picks the individual cell `T` — the search is
individual-cells-first, not document order across both classes. -/
theorem C3_counterexample_individuals_beat_document_order :
    (DrawIOXMLTree.build closeDoc >>= fun t =>
      _cell_close_to t (60, 60) DEFAULT_MAX_GAP) = .ok cellT ∧
    _close_enough (60, 60) (0, 0, 100, 100) DEFAULT_MAX_GAP = true ∧
    closeDoc.descendants.find?
      (fun e => e.attr "id" == some "L" || e.attr "id" == some "T") = some cellL ∧
    cellT ≠ cellL := by
  refine ⟨rfl, rfl, rfl, ?_⟩
  intro h
  exact absurd (congrArg (fun e => Elem.attr e "id") h) (by decide)

/-- C3 amended, witnessed: a far-away point fails, a point close to
exactly the individual cell resolves to it. -/
theorem C3_amended_proximity_resolution_witness :
    _cell_close_to proximityState (200, 200) DEFAULT_MAX_GAP = .error .noCellCloseEnough ∧
    _cell_close_to proximityState (5, 5) DEFAULT_MAX_GAP = .ok cellA := by
  constructor
  · exact (C3_amended_proximity_resolution proximityState (200, 200) DEFAULT_MAX_GAP).1
      (by decide)
  · exact (C3_amended_proximity_resolution proximityState (5, 5) DEFAULT_MAX_GAP).2.2.1
      [] (cellA, ⟨"A", "Person"⟩, (0, 0, 10, 10)) [] rfl (by decide)
      (fun y hy => absurd hy (by simp))

end DrawIO
